import Mathlib

/-!
Verification of the solitaire rules engine (Klondike, Spider, FreeCell).

The definitions below are a shallow embedding of the JavaScript source:
`Card` (src/js engine Card), `Pile`, `GameState`, the three rule variants
(`KlondikeGame`, `SpiderGame`, `FreeCellGame`) and the move orchestration
of the `GameController` (tryMove / onStockClick / undo / restore).

Modelling conventions:
* JS objects `{suit, rank, faceUp}` become the `Card` structure; equality is
  value equality, matching the snapshot/undo semantics of the source.
* A `GameState`'s pile map (a JS object keyed by pile id, insertion ordered)
  becomes a `List Pile` in insertion order; lookups (`getPile`) use the first
  id match, which agrees with the JS object as long as ids are unique
  (`NodupIds` below; JS object keys are always unique).
* Mutation of a pile's card array through an object reference becomes
  `modifyPileCards`, keyed by the pile id.
* Move intents carry the lift index into the source pile: every in-repo call
  site passes `pile.cards.slice(cardIndex)` to `tryMove`, so the moved cards
  are exactly the suffix of the source pile from that index, and the JS
  identity-based `indexOf(cards[0])` recovers that same index.
* Ranks are compared over `Int` where the source subtracts (`top.rank - 1`),
  so the embedding agrees with JS number arithmetic on all inputs.
* `startTime` (wall clock) is omitted: it never enters snapshots or any
  claim; `Deck.shuffle` (randomness) is modelled by quantifying over the
  already-shuffled deck list.
-/

namespace Solitaire

inductive Suit where
  | hearts | diamonds | clubs | spades
deriving DecidableEq

inductive CColor where
  | red | black
deriving DecidableEq

/-- `Card.color` getter: red for hearts/diamonds, black otherwise. -/
def Suit.color : Suit → CColor
  | .hearts => .red
  | .diamonds => .red
  | _ => .black

structure Card where
  suit : Suit
  rank : Nat
  faceUp : Bool
deriving DecidableEq

def Card.color (c : Card) : CColor := c.suit.color

inductive PileType where
  | tableau | foundation | stock | waste | freecell
deriving DecidableEq

structure Pile where
  type : PileType
  id : String
  cards : List Card
deriving DecidableEq

/-- `Pile.topCard()`: last element of the card array, or null. -/
def Pile.topCard (p : Pile) : Option Card := p.cards.getLast?

/-- `Pile.isEmpty()`. -/
def Pile.isEmpty (p : Pile) : Bool := p.cards.isEmpty

/-- One pile of a serialized snapshot: `{type, cards:[{suit,rank,faceUp}]}`
keyed by the pile id. -/
structure SnapEntry where
  id : String
  type : PileType
  cards : List Card
deriving DecidableEq

/-- One entry of the undo stack: `{piles: snapshot(), moveCount}`. -/
structure UndoEntry where
  piles : List SnapEntry
  moveCount : Nat
deriving DecidableEq

structure GameState where
  piles : List Pile
  undoStack : List UndoEntry
  moveCount : Nat
  won : Bool
deriving DecidableEq

def GameState.getPile (s : GameState) (pid : String) : Option Pile :=
  s.piles.find? (fun p => p.id = pid)

def GameState.getPilesByType (s : GameState) (t : PileType) : List Pile :=
  s.piles.filter (fun p => p.type = t)

/-- `GameState.snapshot()`: value capture of every pile's type and card
values, in pile insertion order. -/
def GameState.snapshotPiles (s : GameState) : List SnapEntry :=
  s.piles.map (fun p => ⟨p.id, p.type, p.cards⟩)

/-- `GameState.pushUndo()` (stack top at the head of the list). -/
def GameState.pushUndo (s : GameState) : GameState :=
  { s with undoStack := ⟨s.snapshotPiles, s.moveCount⟩ :: s.undoStack }

/-- Replace the card list of the pile with the given id (mutation of a
pile's `cards` through its object reference in the source). -/
def GameState.modifyPileCards (s : GameState) (pid : String)
    (f : List Card → List Card) : GameState :=
  { s with piles := s.piles.map (fun p =>
      if p.id = pid then { p with cards := f p.cards } else p) }

/-- Pile ids are unique: always true of the JS pile map (object keys). -/
def NodupIds (s : GameState) : Prop := (s.piles.map Pile.id).Nodup

instance (s : GameState) : Decidable (NodupIds s) := by
  unfold NodupIds; infer_instance

/-! ### Variant legality: `canMove` -/

/-- Klondike `canMove(cards, fromPile, toPile)`; piles are passed by id,
`fromPile === toPile` becomes id equality (`none` models a null fromPile,
as passed by `findAutoMoveToFoundation`). -/
def KlondikeGame.canMove (s : GameState) (cards : List Card)
    (fromId : Option String) (toId : String) : Bool :=
  match s.getPile toId with
  | none => false
  | some toPile =>
    if cards.isEmpty then false
    else if fromId = some toId then false
    else
      match cards.head? with
      | none => false
      | some bottomCard =>
        match toPile.type with
        | .foundation =>
          if cards.length ≠ 1 then false
          else
            match toPile.topCard with
            | none => decide (bottomCard.rank = 1)
            | some top =>
                decide (bottomCard.suit = top.suit) &&
                decide (bottomCard.rank = top.rank + 1)
        | .tableau =>
          match toPile.topCard with
          | none => decide (bottomCard.rank = 13)
          | some top =>
              decide (bottomCard.color ≠ top.color) &&
              decide ((bottomCard.rank : Int) = (top.rank : Int) - 1)
        | _ => false

/-- Spider `_isValidSequence`: strictly descending consecutive ranks, all of
one suit (checked pairwise over adjacent cards, as in the source loop). -/
def SpiderGame.isValidSequence : List Card → Bool
  | [] => true
  | [_] => true
  | c1 :: c2 :: rest =>
      decide (c2.suit = c1.suit) &&
      decide ((c2.rank : Int) = (c1.rank : Int) - 1) &&
      SpiderGame.isValidSequence (c2 :: rest)

/-- Spider `canMove`. -/
def SpiderGame.canMove (s : GameState) (cards : List Card)
    (fromId : Option String) (toId : String) : Bool :=
  match s.getPile toId with
  | none => false
  | some toPile =>
    if cards.isEmpty then false
    else if fromId = some toId then false
    else if toPile.type ≠ PileType.tableau then false
    else if ¬ SpiderGame.isValidSequence cards then false
    else
      match toPile.topCard with
      | none => true
      | some top =>
        match cards.head? with
        | none => false
        | some c0 => decide ((c0.rank : Int) = (top.rank : Int) - 1)

/-- FreeCell `_maxMovable(targetPile)`: supermove capacity
`(1 + empty freecells) * 2 ^ (empty tableau piles other than the target)`. -/
def FreeCellGame.maxMovable (s : GameState) (targetId : String) : Nat :=
  let freeCells :=
    ((s.getPilesByType .freecell).filter (fun p => p.isEmpty)).length
  let emptyTableau :=
    ((s.getPilesByType .tableau).filter
      (fun p => p.isEmpty && decide (p.id ≠ targetId))).length
  (1 + freeCells) * 2 ^ emptyTableau

/-- FreeCell moved-sequence check: alternating colors, descending by one
(the inline loop in FreeCell `canMove`). -/
def FreeCellGame.isAltDescending : List Card → Bool
  | [] => true
  | [_] => true
  | c1 :: c2 :: rest =>
      decide (c2.color ≠ c1.color) &&
      decide ((c2.rank : Int) = (c1.rank : Int) - 1) &&
      FreeCellGame.isAltDescending (c2 :: rest)

/-- FreeCell `canMove`. -/
def FreeCellGame.canMove (s : GameState) (cards : List Card)
    (fromId : Option String) (toId : String) : Bool :=
  match s.getPile toId with
  | none => false
  | some toPile =>
    if cards.isEmpty then false
    else if fromId = some toId then false
    else
      match cards.head? with
      | none => false
      | some bottomCard =>
        match toPile.type with
        | .foundation =>
          if cards.length ≠ 1 then false
          else
            match toPile.topCard with
            | none => decide (bottomCard.rank = 1)
            | some top =>
                decide (bottomCard.suit = top.suit) &&
                decide (bottomCard.rank = top.rank + 1)
        | .freecell => decide (cards.length = 1) && toPile.isEmpty
        | .tableau =>
          if cards.length > FreeCellGame.maxMovable s toId then false
          else if ¬ FreeCellGame.isAltDescending cards then false
          else
            match toPile.topCard with
            | none => true
            | some top =>
                decide (bottomCard.color ≠ top.color) &&
                decide ((bottomCard.rank : Int) = (top.rank : Int) - 1)
        | _ => false

/-! ### Post-move hooks and stock-click behaviour -/

def setFaceUp (c : Card) : Card := { c with faceUp := true }

def setFaceDown (c : Card) : Card := { c with faceUp := false }

/-- Set the top (last) card face-up, as `topCard.faceUp = true` does; the
source guards on `!topCard.faceUp`, which yields the same value. -/
def setLastFaceUp : List Card → List Card
  | [] => []
  | [c] => [setFaceUp c]
  | c :: c2 :: rest => c :: setLastFaceUp (c2 :: rest)

/-- Shared flip of the newly exposed source-pile top card (Klondike and
Spider `onMove`: only when the source is a non-empty tableau pile). -/
def flipSourceTop (s : GameState) (fromId : String) : GameState :=
  match s.getPile fromId with
  | none => s
  | some p =>
    if p.type = PileType.tableau ∧ ¬ p.cards.isEmpty then
      s.modifyPileCards fromId setLastFaceUp
    else s

/-- Klondike `onMove(cards, fromPile, toPile)`. -/
def KlondikeGame.onMove (s : GameState) (fromId : String) : GameState :=
  flipSourceTop s fromId

/-- The 13-card face-up King-to-Ace run of one suit, top of pile last; the
loop in `_checkCompleteSequence` accepts exactly this list as the topmost 13
cards (`faceUp`, suit of the card at `len-13`, ranks `13 - i`). -/
def kingToAceRun (su : Suit) : List Card :=
  (List.range 13).map (fun i => ⟨su, 13 - i, true⟩)

/-- Spider `_checkCompleteSequence(pile)`: if the topmost 13 cards of the
pile are a complete face-up same-suit K→A run, move them to the first empty
foundation pile (insertion order) and flip the newly exposed card. -/
def SpiderGame.checkCompleteSequence (s : GameState) (pid : String) :
    GameState :=
  match s.getPile pid with
  | none => s
  | some p =>
    if p.cards.length < 13 then s
    else
      let start := p.cards.length - 13
      let top := p.cards.drop start
      match top.head? with
      | none => s
      | some c0 =>
        if top = kingToAceRun c0.suit then
          match (s.getPilesByType .foundation).find? (fun f => f.isEmpty) with
          | none => s
          | some f =>
            let s1 := s.modifyPileCards pid (fun cs => cs.take start)
            let s2 := s1.modifyPileCards f.id (fun cs => cs ++ top)
            s2.modifyPileCards pid setLastFaceUp
        else s

/-- Spider `onMove`: flip the exposed source top, then scan the destination
pile for a completed sequence. -/
def SpiderGame.onMove (s : GameState) (fromId toId : String) : GameState :=
  SpiderGame.checkCompleteSequence (flipSourceTop s fromId) toId

/-- Klondike recycle loop: `while (!waste.isEmpty())` pop the waste top,
flip it face-down, push it onto the stock; processed here in pop order
(`wastePopOrder` = waste from the top down). -/
def recycleAux : List Card → List Card → List Card
  | [], stock => stock
  | c :: rest, stock => recycleAux rest (stock ++ [setFaceDown c])

/-- Klondike draw loop: `count` times pop the stock top, flip it face-up,
push it onto the waste. -/
def drawAux : Nat → List Card → List Card → List Card × List Card
  | 0, stock, waste => (stock, waste)
  | n + 1, stock, waste =>
    match stock.getLast? with
    | none => (stock, waste)
    | some c => drawAux n stock.dropLast (waste ++ [setFaceUp c])

/-- Klondike `onStockClick()`. -/
def KlondikeGame.onStockClick (s : GameState) (drawCount : Nat) : GameState :=
  match s.getPile "stock", s.getPile "waste" with
  | some stock, some waste =>
    if stock.isEmpty then
      let newStock := recycleAux waste.cards.reverse stock.cards
      (s.modifyPileCards "waste" (fun _ => [])).modifyPileCards "stock"
        (fun _ => newStock)
    else
      let count := min drawCount stock.cards.length
      let sw := drawAux count stock.cards waste.cards
      (s.modifyPileCards "stock" (fun _ => sw.1)).modifyPileCards "waste"
        (fun _ => sw.2)
  | _, _ => s

/-- Spider deal loop: one face-up card from the stock top onto each tableau
pile in registration order, stopping when the stock runs out; returns the
remaining stock cards and the updated state. -/
def SpiderGame.dealLoop : List Card → List String → GameState →
    List Card × GameState
  | stockCards, [], s => (stockCards, s)
  | stockCards, pid :: rest, s =>
    match stockCards.getLast? with
    | none => (stockCards, s)
    | some c =>
        SpiderGame.dealLoop stockCards.dropLast rest
          (s.modifyPileCards pid (fun cs => cs ++ [setFaceUp c]))

/-- The state after Spider's deal phase: one card dealt to each tableau
pile and the remaining cards written back to the stock pile. -/
def SpiderGame.postDealState (s : GameState) (stockCards : List Card) :
    GameState :=
  let rs := SpiderGame.dealLoop stockCards
    ((s.getPilesByType .tableau).map Pile.id) s
  rs.2.modifyPileCards "stock" (fun _ => rs.1)

/-- Spider `onStockClick()`: deal one card to every tableau pile (only when
none is empty), then run the completed-sequence check on each tableau pile. -/
def SpiderGame.onStockClick (s : GameState) : GameState :=
  match s.getPile "stock" with
  | none => s
  | some stock =>
    if stock.isEmpty then s
    else if (s.getPilesByType .tableau).any (fun p => p.isEmpty) then s
    else
      ((s.getPilesByType .tableau).map Pile.id).foldl
        (fun st pid => SpiderGame.checkCompleteSequence st pid)
        (SpiderGame.postDealState s stock.cards)

/-- The completed-sequence scan of Spider's `onStockClick`:
`_checkCompleteSequence` applied to each given pile id in order. -/
def SpiderGame.collectScan (s0 : GameState) (pids : List String) : GameState :=
  pids.foldl (fun st pid => SpiderGame.checkCompleteSequence st pid) s0

/-- The pile ids Spider's `onStockClick` scans: the tableau piles in
registration order. -/
def SpiderGame.scanIds (s : GameState) : List String :=
  (s.getPilesByType .tableau).map Pile.id

/-! ### Games and the move orchestration (GameController) -/

inductive Variant where
  | klondike (drawCount : Nat)
  | spider (suitCount : Nat)
  | freecell
deriving DecidableEq

structure Game where
  variant : Variant
  state : GameState
deriving DecidableEq

def Game.canMove (g : Game) (cards : List Card) (fromId : Option String)
    (toId : String) : Bool :=
  match g.variant with
  | .klondike _ => KlondikeGame.canMove g.state cards fromId toId
  | .spider _ => SpiderGame.canMove g.state cards fromId toId
  | .freecell => FreeCellGame.canMove g.state cards fromId toId

/-- The `canMove` method call as a state transformer: its body contains no
assignment, so the post-state is the pre-state. -/
def Game.canMoveStep (g : Game) (cards : List Card) (fromId : Option String)
    (toId : String) : Bool × Game :=
  (g.canMove cards fromId toId, g)

def Game.onMove (g : Game) (fromId toId : String) : Game :=
  match g.variant with
  | .klondike _ => { g with state := KlondikeGame.onMove g.state fromId }
  | .spider _ => { g with state := SpiderGame.onMove g.state fromId toId }
  | .freecell => g

def Game.onStockClick (g : Game) : Game :=
  match g.variant with
  | .klondike dc => { g with state := KlondikeGame.onStockClick g.state dc }
  | .spider _ => { g with state := SpiderGame.onStockClick g.state }
  | .freecell => g

/-- `isWon()`: every foundation pile holds 13 cards (same body in all three
variants). -/
def Game.isWon (g : Game) : Bool :=
  (g.state.getPilesByType .foundation).all (fun p => p.cards.length = 13)

namespace GameController

/-- The cards lifted by a move intent: the suffix of the source pile from
the lift index (every in-repo caller passes `pile.cards.slice(cardIndex)`,
and `indexOf(cards[0])` recovers that index by object identity). -/
def liftedCards (g : Game) (fromId : String) (startIndex : Nat) : List Card :=
  match g.state.getPile fromId with
  | none => []
  | some p => p.cards.drop startIndex

/-- `GameController.tryMove(cards, fromPile, toPile)`: validate, push an
undo snapshot, transfer the cards, run the variant `onMove` hook, bump
`moveCount`, detect a win. -/
def tryMove (g : Game) (fromId toId : String) (startIndex : Nat) :
    Bool × Game :=
  match g.state.getPile fromId with
  | none => (false, g)
  | some fromPile =>
    let cards := fromPile.cards.drop startIndex
    if ¬ g.canMove cards (some fromId) toId then (false, g)
    else
      let s1 := g.state.pushUndo
      let s2 := s1.modifyPileCards fromId (fun cs => cs.take startIndex)
      let s3 := s2.modifyPileCards toId (fun cs => cs ++ cards)
      let g1 := Game.onMove { g with state := s3 } fromId toId
      let g2 :=
        { g1 with state := { g1.state with
            moveCount := g1.state.moveCount + 1 } }
      if g2.isWon then
        (true, { g2 with state := { g2.state with won := true } })
      else (true, g2)

/-- `GameController.onStockClick()`: push an undo snapshot, delegate to the
variant, bump `moveCount`. -/
def onStockClick (g : Game) : Game :=
  let g1 := Game.onStockClick { g with state := g.state.pushUndo }
  { g1 with state := { g1.state with moveCount := g1.state.moveCount + 1 } }

/-- `GameController._restoreSnapshot(snapshot)`: rebuild every pile's card
list from the snapshot entry with its id (fresh value-equal cards) and
restore `moveCount`. -/
def restoreSnapshot (s : GameState) (entry : UndoEntry) : GameState :=
  { s with
    piles := s.piles.map (fun p =>
      match entry.piles.find? (fun e => e.id = p.id) with
      | some e => { p with cards := e.cards }
      | none => p),
    moveCount := entry.moveCount }

/-- `GameController.undo()`: no-op on an empty stack, else pop the most
recent snapshot and restore it. -/
def undo (g : Game) : Game :=
  match g.state.undoStack with
  | [] => g
  | entry :: rest =>
      { g with state := restoreSnapshot { g.state with undoStack := rest } entry }

end GameController

/-! ### Setup: deck composition and initial deals

`Deck.shuffle()` is a uniform permutation; the setups below take the
already-shuffled deck list as a parameter, so every theorem about them
quantifies over an arbitrary permutation of the constructed deck. The
per-pile deal loops of the source run a constant number of iterations and
are unrolled here; `deal(n)` is `splitAt` (take / drop). -/

/-- The face pattern the tableau deal sets: `card.faceUp = (j === len-1)`,
i.e. only the last dealt card is face-up. -/
def flipDealt : List Card → List Card
  | [] => []
  | [c] => [setFaceUp c]
  | c :: c2 :: rest => setFaceDown c :: flipDealt (c2 :: rest)

/-- `Deck.createStandard52()`: all 52 (suit, rank) combinations, face-down. -/
def standardDeck : List Card :=
  ([Suit.hearts, Suit.diamonds, Suit.clubs, Suit.spades].map (fun su =>
    (List.range 13).map (fun r => (⟨su, r + 1, false⟩ : Card)))).flatten

/-- Spider deck: `floor(8 / suitCount)` thirteen-card suit decks for each of
the first `suitCount` suits (the registry only constructs suit counts 1, 2
and 4). -/
def spiderDeck (suitCount : Nat) : List Card :=
  let usedSuits := [Suit.spades, Suit.hearts, Suit.diamonds, Suit.clubs].take suitCount
  let decksPerSuit := 8 / usedSuits.length
  (usedSuits.map (fun su =>
    ((List.range decksPerSuit).map (fun _ =>
      (List.range 13).map (fun r => (⟨su, r + 1, false⟩ : Card)))).flatten)).flatten

/-- Klondike `setup()` on a shuffled deck: seven tableau piles of 1..7 cards
(top card face-up), four foundations, the rest as stock, an empty waste. -/
def KlondikeGame.setup (deck : List Card) : GameState :=
  let t0 := deck.take 1
  let d1 := deck.drop 1
  let t1 := d1.take 2
  let d2 := d1.drop 2
  let t2 := d2.take 3
  let d3 := d2.drop 3
  let t3 := d3.take 4
  let d4 := d3.drop 4
  let t4 := d4.take 5
  let d5 := d4.drop 5
  let t5 := d5.take 6
  let d6 := d5.drop 6
  let t6 := d6.take 7
  let d7 := d6.drop 7
  { piles :=
      [⟨.tableau, "tableau-0", flipDealt t0⟩,
       ⟨.tableau, "tableau-1", flipDealt t1⟩,
       ⟨.tableau, "tableau-2", flipDealt t2⟩,
       ⟨.tableau, "tableau-3", flipDealt t3⟩,
       ⟨.tableau, "tableau-4", flipDealt t4⟩,
       ⟨.tableau, "tableau-5", flipDealt t5⟩,
       ⟨.tableau, "tableau-6", flipDealt t6⟩,
       ⟨.foundation, "foundation-0", []⟩,
       ⟨.foundation, "foundation-1", []⟩,
       ⟨.foundation, "foundation-2", []⟩,
       ⟨.foundation, "foundation-3", []⟩,
       ⟨.stock, "stock", d7⟩,
       ⟨.waste, "waste", []⟩],
    undoStack := [], moveCount := 0, won := false }

/-- Spider `setup()` on a shuffled deck: ten tableau piles (6,6,6,6 then
5,5,5,5,5,5 cards, top face-up), eight foundations, the rest as stock. -/
def SpiderGame.setup (deck : List Card) : GameState :=
  let t0 := deck.take 6
  let d1 := deck.drop 6
  let t1 := d1.take 6
  let d2 := d1.drop 6
  let t2 := d2.take 6
  let d3 := d2.drop 6
  let t3 := d3.take 6
  let d4 := d3.drop 6
  let t4 := d4.take 5
  let d5 := d4.drop 5
  let t5 := d5.take 5
  let d6 := d5.drop 5
  let t6 := d6.take 5
  let d7 := d6.drop 5
  let t7 := d7.take 5
  let d8 := d7.drop 5
  let t8 := d8.take 5
  let d9 := d8.drop 5
  let t9 := d9.take 5
  let d10 := d9.drop 5
  { piles :=
      [⟨.tableau, "tableau-0", flipDealt t0⟩,
       ⟨.tableau, "tableau-1", flipDealt t1⟩,
       ⟨.tableau, "tableau-2", flipDealt t2⟩,
       ⟨.tableau, "tableau-3", flipDealt t3⟩,
       ⟨.tableau, "tableau-4", flipDealt t4⟩,
       ⟨.tableau, "tableau-5", flipDealt t5⟩,
       ⟨.tableau, "tableau-6", flipDealt t6⟩,
       ⟨.tableau, "tableau-7", flipDealt t7⟩,
       ⟨.tableau, "tableau-8", flipDealt t8⟩,
       ⟨.tableau, "tableau-9", flipDealt t9⟩,
       ⟨.foundation, "foundation-0", []⟩,
       ⟨.foundation, "foundation-1", []⟩,
       ⟨.foundation, "foundation-2", []⟩,
       ⟨.foundation, "foundation-3", []⟩,
       ⟨.foundation, "foundation-4", []⟩,
       ⟨.foundation, "foundation-5", []⟩,
       ⟨.foundation, "foundation-6", []⟩,
       ⟨.foundation, "foundation-7", []⟩,
       ⟨.stock, "stock", d10⟩],
    undoStack := [], moveCount := 0, won := false }

/-- FreeCell `setup()` on a shuffled deck: eight tableau piles (7,7,7,7 then
6,6,6,6 cards, all face-up), four free cells, four foundations; there is no
stock pile, so any cards beyond 52 would be dropped (a 52-card deck is
dealt out completely). -/
def FreeCellGame.setup (deck : List Card) : GameState :=
  let t0 := deck.take 7
  let d1 := deck.drop 7
  let t1 := d1.take 7
  let d2 := d1.drop 7
  let t2 := d2.take 7
  let d3 := d2.drop 7
  let t3 := d3.take 7
  let d4 := d3.drop 7
  let t4 := d4.take 6
  let d5 := d4.drop 6
  let t5 := d5.take 6
  let d6 := d5.drop 6
  let t6 := d6.take 6
  let d7 := d6.drop 6
  let t7 := d7.take 6
  { piles :=
      [⟨.tableau, "tableau-0", t0.map setFaceUp⟩,
       ⟨.tableau, "tableau-1", t1.map setFaceUp⟩,
       ⟨.tableau, "tableau-2", t2.map setFaceUp⟩,
       ⟨.tableau, "tableau-3", t3.map setFaceUp⟩,
       ⟨.tableau, "tableau-4", t4.map setFaceUp⟩,
       ⟨.tableau, "tableau-5", t5.map setFaceUp⟩,
       ⟨.tableau, "tableau-6", t6.map setFaceUp⟩,
       ⟨.tableau, "tableau-7", t7.map setFaceUp⟩,
       ⟨.freecell, "freecell-0", []⟩,
       ⟨.freecell, "freecell-1", []⟩,
       ⟨.freecell, "freecell-2", []⟩,
       ⟨.freecell, "freecell-3", []⟩,
       ⟨.foundation, "foundation-0", []⟩,
       ⟨.foundation, "foundation-1", []⟩,
       ⟨.foundation, "foundation-2", []⟩,
       ⟨.foundation, "foundation-3", []⟩],
    undoStack := [], moveCount := 0, won := false }

/-! ### Derived observations used by the claims -/

/-- Total number of cards across all piles. -/
def totalCards (s : GameState) : Nat :=
  (s.piles.map (fun p => p.cards.length)).sum

/-- Total number of cards recorded in one undo snapshot. -/
def entryTotal (e : UndoEntry) : Nat :=
  (e.piles.map (fun en => en.cards.length)).sum

/-- The (id, type) skeleton of a state's piles. -/
def pilesSkeleton (s : GameState) : List (String × PileType) :=
  s.piles.map (fun p => (p.id, p.type))

/-- The (id, type) skeleton of a snapshot. -/
def entrySkeleton (e : UndoEntry) : List (String × PileType) :=
  e.piles.map (fun en => (en.id, en.type))

/-- The (suit, rank) value of a card (its stable identity, `Card.id`). -/
def cardPair (c : Card) : Suit × Nat := (c.suit, c.rank)

/-- All cards of the state, pile by pile in insertion order. -/
def allCards (s : GameState) : List Card :=
  (s.piles.map Pile.cards).flatten

/-- Multiplicity of a (suit, rank) value across all piles. -/
def pairCount (s : GameState) (pr : Suit × Nat) : Nat :=
  ((allCards s).map cardPair).countP (fun x => x = pr)

/-! ### Basic lemmas: pile lookup and card-list modification -/

lemma modifier_id (pid : String) (f : List Card → List Card) (p : Pile) :
    (if p.id = pid then { p with cards := f p.cards } else p).id = p.id := by
  split <;> rfl

lemma modifier_type (pid : String) (f : List Card → List Card) (p : Pile) :
    (if p.id = pid then { p with cards := f p.cards } else p).type = p.type := by
  split <;> rfl

lemma getPile_mem {s : GameState} {pid : String} {p : Pile}
    (h : s.getPile pid = some p) : p ∈ s.piles ∧ p.id = pid := by
  unfold GameState.getPile at h
  exact ⟨List.mem_of_find?_eq_some h, by simpa using List.find?_some h⟩

lemma find?_id_of_mem :
    ∀ (l : List Pile) (p : Pile), (l.map Pile.id).Nodup → p ∈ l →
      l.find? (fun q => q.id = p.id) = some p := by
  intro l
  induction l with
  | nil => intro p _ hp; cases hp
  | cons q l ih =>
    intro p wf hp
    rcases List.mem_cons.mp hp with h | h
    · subst h; rw [List.find?_cons_of_pos _ (by simp)]
    · have hq : q.id ≠ p.id := by
        intro hEq
        have hmem : p.id ∈ l.map Pile.id := List.mem_map_of_mem Pile.id h
        rw [← hEq] at hmem
        exact (List.nodup_cons.mp wf).1 hmem
      rw [List.find?_cons_of_neg _ (by simpa using hq)]
      exact ih p (List.nodup_cons.mp wf).2 h

lemma getPile_of_mem {s : GameState} {p : Pile} (wf : NodupIds s)
    (hp : p ∈ s.piles) : s.getPile p.id = some p :=
  find?_id_of_mem s.piles p wf hp

lemma find?_modify_self (l : List Pile) (pid : String)
    (f : List Card → List Card) :
    (l.map (fun p => if p.id = pid then { p with cards := f p.cards } else p)).find?
        (fun p => p.id = pid)
      = (l.find? (fun p => p.id = pid)).map
          (fun p => { p with cards := f p.cards }) := by
  induction l with
  | nil => rfl
  | cons q l ih =>
    by_cases h : q.id = pid
    · simp only [List.map_cons]
      rw [List.find?_cons_of_pos _ (by simpa [modifier_id] using h),
        List.find?_cons_of_pos _ (by simpa using h), if_pos h, Option.map]
    · simp only [List.map_cons]
      rw [List.find?_cons_of_neg _ (by simpa [modifier_id] using h),
        List.find?_cons_of_neg _ (by simpa using h)]
      exact ih

lemma getPile_modify_self {s : GameState} {pid : String} {p : Pile}
    (f : List Card → List Card) (h : s.getPile pid = some p) :
    (s.modifyPileCards pid f).getPile pid = some { p with cards := f p.cards } := by
  unfold GameState.getPile GameState.modifyPileCards at *
  rw [find?_modify_self, h, Option.map]

lemma find?_modify_ne (l : List Pile) (pid qid : String)
    (f : List Card → List Card) (h : qid ≠ pid) :
    (l.map (fun p => if p.id = pid then { p with cards := f p.cards } else p)).find?
        (fun p => p.id = qid)
      = l.find? (fun p => p.id = qid) := by
  induction l with
  | nil => rfl
  | cons q l ih =>
    by_cases hq : q.id = qid
    · have hnp : ¬ q.id = pid := by rw [hq]; exact h
      simp only [List.map_cons, if_neg hnp]
      rw [List.find?_cons_of_pos _ (by simpa using hq),
        List.find?_cons_of_pos _ (by simpa using hq)]
    · simp only [List.map_cons]
      rw [List.find?_cons_of_neg _ (by simpa [modifier_id] using hq),
        List.find?_cons_of_neg _ (by simpa using hq)]
      exact ih

lemma getPile_modify_ne {s : GameState} {pid qid : String}
    (f : List Card → List Card) (h : qid ≠ pid) :
    (s.modifyPileCards pid f).getPile qid = s.getPile qid :=
  find?_modify_ne s.piles pid qid f h

lemma getPile_modify_none {s : GameState} {pid : String}
    (f : List Card → List Card) (h : s.getPile pid = none) :
    s.modifyPileCards pid f = s := by
  unfold GameState.getPile at h
  unfold GameState.modifyPileCards
  have : ∀ p ∈ s.piles,
      (if p.id = pid then { p with cards := f p.cards } else p) = p := by
    intro p hp
    have := List.find?_eq_none.mp h p hp
    simp only [decide_eq_true_eq] at this
    simp [this]
  cases s with
  | mk piles undoStack moveCount won =>
    simp only [GameState.mk.injEq, and_true, true_and]
    calc piles.map _ = piles.map id := List.map_congr_left this
    _ = piles := List.map_id piles

/-! ### Shape preservation: every mutation only rewrites card lists -/

/-- `s'` differs from `s` only in the card lists inside its piles: same pile
ids and types in the same order, same undo stack, move count and win flag. -/
def SameShape (s s' : GameState) : Prop :=
  pilesSkeleton s' = pilesSkeleton s ∧ s'.undoStack = s.undoStack ∧
    s'.moveCount = s.moveCount ∧ s'.won = s.won

lemma sameShape_refl (s : GameState) : SameShape s s := ⟨rfl, rfl, rfl, rfl⟩

lemma sameShape_trans {s1 s2 s3 : GameState} (h1 : SameShape s1 s2)
    (h2 : SameShape s2 s3) : SameShape s1 s3 :=
  ⟨h2.1.trans h1.1, h2.2.1.trans h1.2.1, h2.2.2.1.trans h1.2.2.1,
    h2.2.2.2.trans h1.2.2.2⟩

lemma sameShape_modify (s : GameState) (pid : String)
    (f : List Card → List Card) : SameShape s (s.modifyPileCards pid f) := by
  refine ⟨?_, rfl, rfl, rfl⟩
  unfold pilesSkeleton GameState.modifyPileCards
  simp only [List.map_map]
  exact List.map_congr_left (fun p _ => by
    simp [Function.comp, modifier_id, modifier_type])

lemma nodupIds_of_sameShape {s s' : GameState} (h : SameShape s s')
    (wf : NodupIds s) : NodupIds s' := by
  unfold NodupIds at *
  have hids : s'.piles.map Pile.id = s.piles.map Pile.id := by
    have := congrArg (List.map Prod.fst) h.1
    simpa [pilesSkeleton, List.map_map, Function.comp] using this
  rw [hids]; exact wf

lemma sameShape_flipSourceTop (s : GameState) (fromId : String) :
    SameShape s (flipSourceTop s fromId) := by
  unfold flipSourceTop
  cases s.getPile fromId with
  | none => exact sameShape_refl s
  | some p =>
    dsimp only
    split
    · exact sameShape_modify s fromId setLastFaceUp
    · exact sameShape_refl s

lemma sameShape_checkComplete (s : GameState) (pid : String) :
    SameShape s (SpiderGame.checkCompleteSequence s pid) := by
  unfold SpiderGame.checkCompleteSequence
  cases s.getPile pid with
  | none => exact sameShape_refl s
  | some p =>
    dsimp only
    split
    · exact sameShape_refl s
    · cases (p.cards.drop (p.cards.length - 13)).head? with
      | none => exact sameShape_refl s
      | some c0 =>
        dsimp only
        split
        · cases (s.getPilesByType .foundation).find? (fun f => f.isEmpty) with
          | none => exact sameShape_refl s
          | some f =>
            exact sameShape_trans (sameShape_trans (sameShape_modify ..)
              (sameShape_modify ..)) (sameShape_modify ..)
        · exact sameShape_refl s

lemma sameShape_dealLoop :
    ∀ (stockCards : List Card) (pids : List String) (s : GameState),
      SameShape s (SpiderGame.dealLoop stockCards pids s).2 := by
  intro stockCards pids
  induction pids generalizing stockCards with
  | nil => intro s; exact sameShape_refl s
  | cons pid rest ih =>
    intro s
    unfold SpiderGame.dealLoop
    cases stockCards.getLast? with
    | none => exact sameShape_refl s
    | some c => exact sameShape_trans (sameShape_modify ..) (ih _ _)

lemma sameShape_collectAll (pids : List String) :
    ∀ s : GameState,
      SameShape s
        (pids.foldl (fun st pid => SpiderGame.checkCompleteSequence st pid) s) := by
  induction pids with
  | nil => intro s; exact sameShape_refl s
  | cons pid rest ih =>
    intro s
    exact sameShape_trans (sameShape_checkComplete s pid) (ih _)

lemma sameShape_klondike_onStockClick (s : GameState) (dc : Nat) :
    SameShape s (KlondikeGame.onStockClick s dc) := by
  unfold KlondikeGame.onStockClick
  cases s.getPile "stock" with
  | none => exact sameShape_refl s
  | some stock =>
    cases s.getPile "waste" with
    | none => exact sameShape_refl s
    | some waste =>
      dsimp only
      split
      · exact sameShape_trans (sameShape_modify ..) (sameShape_modify ..)
      · exact sameShape_trans (sameShape_modify ..) (sameShape_modify ..)

lemma sameShape_spider_onStockClick (s : GameState) :
    SameShape s (SpiderGame.onStockClick s) := by
  unfold SpiderGame.onStockClick
  cases s.getPile "stock" with
  | none => exact sameShape_refl s
  | some stock =>
    dsimp only
    split
    · exact sameShape_refl s
    · split
      · exact sameShape_refl s
      · exact sameShape_trans
          (sameShape_trans (sameShape_dealLoop ..) (sameShape_modify ..))
          (sameShape_collectAll ..)

lemma sameShape_game_onMove (g : Game) (fromId toId : String) :
    SameShape g.state (Game.onMove g fromId toId).state := by
  unfold Game.onMove
  cases g.variant with
  | klondike dc => exact sameShape_flipSourceTop ..
  | spider sc =>
    exact sameShape_trans (sameShape_flipSourceTop ..) (sameShape_checkComplete ..)
  | freecell => exact sameShape_refl _

lemma sameShape_game_onStockClick (g : Game) :
    SameShape g.state (Game.onStockClick g).state := by
  unfold Game.onStockClick
  cases g.variant with
  | klondike dc => exact sameShape_klondike_onStockClick ..
  | spider sc => exact sameShape_spider_onStockClick ..
  | freecell => exact sameShape_refl _

/-! ### Restoring a snapshot -/

lemma restore_zip :
    ∀ (cur : List Pile) (es : List SnapEntry),
      cur.map (fun p => (p.id, p.type)) = es.map (fun en => (en.id, en.type)) →
      (cur.map Pile.id).Nodup →
      cur.map (fun p =>
          match es.find? (fun en => en.id = p.id) with
          | some en => { p with cards := en.cards }
          | none => p)
        = List.zipWith (fun p en => { p with cards := en.cards }) cur es := by
  intro cur
  induction cur with
  | nil => intro es _ _; rfl
  | cons p cur ih =>
    intro es hsk wf
    cases es with
    | nil => simp at hsk
    | cons en es =>
      simp only [List.map_cons, List.cons.injEq, Prod.mk.injEq] at hsk
      obtain ⟨⟨hid, _⟩, htail⟩ := hsk
      have hfind : (en :: es).find? (fun x => x.id = p.id) = some en :=
        List.find?_cons_of_pos _ (by simpa using hid.symm)
      simp only [List.map_cons, List.zipWith_cons_cons, hfind, List.cons.injEq]
      refine ⟨trivial, ?_⟩
      have hstep : cur.map (fun q =>
          match (en :: es).find? (fun x => x.id = q.id) with
          | some x => { q with cards := x.cards }
          | none => q)
          = cur.map (fun q =>
          match es.find? (fun x => x.id = q.id) with
          | some x => { q with cards := x.cards }
          | none => q) := by
        refine List.map_congr_left (fun q hq => ?_)
        have hne : en.id ≠ q.id := by
          intro hEq
          have : q.id ∈ cur.map Pile.id := List.mem_map_of_mem Pile.id hq
          rw [← hEq, ← hid] at this
          exact (List.nodup_cons.mp wf).1 this
        rw [List.find?_cons_of_neg _ (by simpa using hne)]
      rw [hstep]
      exact ih es htail (List.nodup_cons.mp wf).2

lemma zip_restore_orig :
    ∀ (cur orig : List Pile),
      cur.map (fun p => (p.id, p.type)) = orig.map (fun p => (p.id, p.type)) →
      List.zipWith (fun p en => { p with cards := en.cards }) cur
          (orig.map (fun q => (⟨q.id, q.type, q.cards⟩ : SnapEntry)))
        = orig := by
  intro cur
  induction cur with
  | nil =>
    intro orig hsk
    cases orig with
    | nil => rfl
    | cons q l => simp at hsk
  | cons p cur ih =>
    intro orig hsk
    cases orig with
    | nil => simp at hsk
    | cons q orig =>
      simp only [List.map_cons, List.cons.injEq, Prod.mk.injEq] at hsk
      obtain ⟨⟨hid, htype⟩, htail⟩ := hsk
      simp only [List.map_cons, List.zipWith_cons_cons, List.cons.injEq]
      refine ⟨?_, ih orig htail⟩
      cases p with
      | mk ptype ppid pcards =>
        cases q with
        | mk qtype qpid qcards => simp_all

lemma zip_restore_lengths :
    ∀ (cur : List Pile) (es : List SnapEntry), cur.length = es.length →
      (List.zipWith (fun p en => { p with cards := en.cards }) cur es).map
          (fun p => p.cards.length)
        = es.map (fun en => en.cards.length) := by
  intro cur
  induction cur with
  | nil =>
    intro es h
    cases es with
    | nil => rfl
    | cons en es => simp at h
  | cons p cur ih =>
    intro es h
    cases es with
    | nil => simp at h
    | cons en es =>
      simp only [List.zipWith_cons_cons, List.map_cons, List.cons.injEq]
      exact ⟨trivial, ih es (by simpa using h)⟩

lemma entrySkeleton_snapshot (s : GameState) (mc : Nat) :
    entrySkeleton ⟨s.snapshotPiles, mc⟩ = pilesSkeleton s := by
  simp only [entrySkeleton, pilesSkeleton, GameState.snapshotPiles, List.map_map]
  rfl

lemma entryTotal_snapshot (s : GameState) (mc : Nat) :
    entryTotal ⟨s.snapshotPiles, mc⟩ = totalCards s := by
  simp only [entryTotal, totalCards, GameState.snapshotPiles, List.map_map]
  rfl

lemma restoreSnapshot_piles {s' : GameState} {e : UndoEntry}
    (hsk : pilesSkeleton s' = entrySkeleton e) (wf : NodupIds s') :
    (GameController.restoreSnapshot s' e).piles
      = List.zipWith (fun p en => { p with cards := en.cards }) s'.piles e.piles := by
  unfold GameController.restoreSnapshot
  exact restore_zip s'.piles e.piles hsk wf

/-! ### The orchestrated operations, structurally -/

lemma ctrl_onStockClick_state (g : Game) :
    (GameController.onStockClick g).state.undoStack
        = (⟨g.state.snapshotPiles, g.state.moveCount⟩ : UndoEntry)
            :: g.state.undoStack
      ∧ pilesSkeleton (GameController.onStockClick g).state = pilesSkeleton g.state
      ∧ (GameController.onStockClick g).state.moveCount = g.state.moveCount + 1 := by
  unfold GameController.onStockClick
  dsimp only
  obtain ⟨hsk, hus, hmc, _⟩ :=
    sameShape_game_onStockClick { g with state := g.state.pushUndo }
  exact ⟨hus, hsk, by rw [hmc]; rfl⟩

lemma tryMove_success_state {g : Game} {fromId toId : String} {k : Nat}
    {g2 : Game} (h : GameController.tryMove g fromId toId k = (true, g2)) :
    g2.state.undoStack
        = (⟨g.state.snapshotPiles, g.state.moveCount⟩ : UndoEntry)
            :: g.state.undoStack
      ∧ pilesSkeleton g2.state = pilesSkeleton g.state
      ∧ g2.state.moveCount = g.state.moveCount + 1 := by
  unfold GameController.tryMove at h
  cases hfp : g.state.getPile fromId with
  | none => rw [hfp] at h; exact absurd (congrArg Prod.fst h) (by simp)
  | some fp =>
    rw [hfp] at h
    dsimp only at h
    cases hcm : g.canMove (fp.cards.drop k) (some fromId) toId with
    | false =>
      rw [if_pos (by simp [hcm])] at h
      exact absurd (congrArg Prod.fst h) (by simp)
    | true =>
      rw [if_neg (by simp [hcm])] at h
      set s3 : GameState :=
        ((g.state.pushUndo).modifyPileCards fromId
            (fun cs => cs.take k)).modifyPileCards toId
          (fun cs => cs ++ fp.cards.drop k) with hs3
      obtain ⟨hsk, hus, hmc, _⟩ :=
        sameShape_game_onMove { g with state := s3 } fromId toId
      have hsk3 : pilesSkeleton s3 = pilesSkeleton g.state := by
        rw [hs3, (sameShape_modify ..).1, (sameShape_modify ..).1]; rfl
      split at h <;>
        [skip; skip] <;>
        · have hg2 := ((Prod.mk.injEq _ _ _ _).mp h).2
          subst hg2
          exact ⟨hus, hsk.trans hsk3, by rw [hmc]; rfl⟩

lemma undo_restores {g g2 : Game} (wf : NodupIds g.state)
    (hstack : g2.state.undoStack
        = (⟨g.state.snapshotPiles, g.state.moveCount⟩ : UndoEntry)
            :: g.state.undoStack)
    (hskel : pilesSkeleton g2.state = pilesSkeleton g.state) :
    (GameController.undo g2).state.snapshotPiles = g.state.snapshotPiles
      ∧ (GameController.undo g2).state.moveCount = g.state.moveCount := by
  unfold GameController.undo
  rw [hstack]
  dsimp only
  set scur : GameState := { g2.state with undoStack := g.state.undoStack } with hscur
  have hskcur : pilesSkeleton scur = pilesSkeleton g.state := hskel
  have wfcur : NodupIds scur := by
    have hids : scur.piles.map Pile.id = g.state.piles.map Pile.id := by
      have := congrArg (List.map Prod.fst) hskcur
      simpa [pilesSkeleton, List.map_map, Function.comp] using this
    unfold NodupIds
    rw [hids]; exact wf
  have hrest : (GameController.restoreSnapshot scur
      ⟨g.state.snapshotPiles, g.state.moveCount⟩).piles = g.state.piles := by
    rw [restoreSnapshot_piles (e := ⟨g.state.snapshotPiles, g.state.moveCount⟩)
      (by rw [hskcur, entrySkeleton_snapshot]) wfcur]
    exact zip_restore_orig scur.piles g.state.piles hskcur
  constructor
  · show (GameController.restoreSnapshot scur
        ⟨g.state.snapshotPiles, g.state.moveCount⟩).snapshotPiles
      = g.state.snapshotPiles
    unfold GameState.snapshotPiles
    exact congrArg (List.map _) hrest
  · rfl

/-! ### Claim theorems -/

/-- C1: Undo is an exact inverse for a single step. On any game state with
unique pile ids: after a successful orchestrated `tryMove` — or an
orchestrated `onStockClick` — followed by `undo()`, the snapshot is
value-equal to the pre-action snapshot and `moveCount` is restored to its
pre-action value. -/
theorem undo_exact_inverse_single_step (g : Game) (fromId toId : String)
    (k : Nat) (wf : NodupIds g.state) :
    (∀ g2, GameController.tryMove g fromId toId k = (true, g2) →
        (GameController.undo g2).state.snapshotPiles = g.state.snapshotPiles
          ∧ (GameController.undo g2).state.moveCount = g.state.moveCount)
      ∧ ((GameController.undo
              (GameController.onStockClick g)).state.snapshotPiles
            = g.state.snapshotPiles
          ∧ (GameController.undo
              (GameController.onStockClick g)).state.moveCount
            = g.state.moveCount) := by
  constructor
  · intro g2 h
    obtain ⟨hst, hsk, _⟩ := tryMove_success_state h
    exact undo_restores wf hst hsk
  · obtain ⟨hst, hsk, _⟩ := ctrl_onStockClick_state g
    exact undo_restores wf hst hsk

/-- A small Klondike position: a black 7 can move onto a red 8. -/
def c1Game : Game :=
  ⟨.klondike 1,
    { piles := [⟨.tableau, "tableau-0", [⟨.spades, 7, true⟩]⟩,
                ⟨.tableau, "tableau-1", [⟨.hearts, 8, true⟩]⟩,
                ⟨.foundation, "foundation-0", []⟩,
                ⟨.stock, "stock", [⟨.clubs, 2, false⟩]⟩,
                ⟨.waste, "waste", []⟩],
      undoStack := [], moveCount := 0, won := false }⟩

theorem undo_exact_inverse_single_step_witness :
    NodupIds c1Game.state
      ∧ GameController.tryMove c1Game "tableau-0" "tableau-1" 0
          = (true, (GameController.tryMove c1Game "tableau-0" "tableau-1" 0).2)
      ∧ (GameController.undo
            (GameController.tryMove c1Game "tableau-0" "tableau-1" 0).2).state.snapshotPiles
          = c1Game.state.snapshotPiles
      ∧ (GameController.undo
            (GameController.tryMove c1Game "tableau-0" "tableau-1" 0).2).state.moveCount
          = c1Game.state.moveCount := by
  refine ⟨by decide, by decide, ?_⟩
  exact (undo_exact_inverse_single_step c1Game "tableau-0" "tableau-1" 0
    (by decide)).1 _ (by decide)

/-- C8: Failed moves are atomic: whenever `canMove` rejects the lifted
cards, `tryMove` reports `false` and returns the game completely unchanged
(no pile contents, no flags, no `moveCount`, no undo-stack push). -/
theorem failed_move_atomic (g : Game) (fromId toId : String) (k : Nat)
    (h : g.canMove (GameController.liftedCards g fromId k) (some fromId) toId
      = false) :
    GameController.tryMove g fromId toId k = (false, g) := by
  unfold GameController.liftedCards at h
  unfold GameController.tryMove
  cases hfp : g.state.getPile fromId with
  | none => rfl
  | some fp =>
    rw [hfp] at h
    dsimp only
    rw [if_pos (by simp [h])]

/-- A Klondike position where the lifted red 6 cannot go onto the red 8. -/
def c8Game : Game :=
  ⟨.klondike 1,
    { piles := [⟨.tableau, "tableau-0", [⟨.hearts, 6, true⟩]⟩,
                ⟨.tableau, "tableau-1", [⟨.diamonds, 8, true⟩]⟩,
                ⟨.foundation, "foundation-0", []⟩,
                ⟨.stock, "stock", []⟩,
                ⟨.waste, "waste", []⟩],
      undoStack := [], moveCount := 0, won := false }⟩

theorem failed_move_atomic_witness :
    c8Game.canMove (GameController.liftedCards c8Game "tableau-0" 0)
        (some "tableau-0") "tableau-1" = false
      ∧ GameController.tryMove c8Game "tableau-0" "tableau-1" 0 = (false, c8Game) :=
  ⟨by decide, failed_move_atomic c8Game "tableau-0" "tableau-1" 0 (by decide)⟩

/-- C9: `canMove` is pure in every variant: as a method call it leaves the
game state unchanged, an immediately repeated call returns the same
boolean, and the result depends only on the piles (not on the undo stack,
move count or win flag). -/
theorem canMove_pure (g : Game) (s1 s2 : GameState) (cards : List Card)
    (fromId : Option String) (toId : String) (hp : s1.piles = s2.piles) :
    (Game.canMoveStep g cards fromId toId).2 = g
      ∧ ((Game.canMoveStep g cards fromId toId).2.canMoveStep
            cards fromId toId).1
          = (Game.canMoveStep g cards fromId toId).1
      ∧ KlondikeGame.canMove s1 cards fromId toId
          = KlondikeGame.canMove s2 cards fromId toId
      ∧ SpiderGame.canMove s1 cards fromId toId
          = SpiderGame.canMove s2 cards fromId toId
      ∧ FreeCellGame.canMove s1 cards fromId toId
          = FreeCellGame.canMove s2 cards fromId toId := by
  have hget : s1.getPile toId = s2.getPile toId := by
    unfold GameState.getPile; rw [hp]
  have hmax : FreeCellGame.maxMovable s1 toId = FreeCellGame.maxMovable s2 toId := by
    unfold FreeCellGame.maxMovable GameState.getPilesByType; rw [hp]
  refine ⟨rfl, rfl, ?_, ?_, ?_⟩
  · unfold KlondikeGame.canMove; rw [hget]
  · unfold SpiderGame.canMove; rw [hget]
  · unfold FreeCellGame.canMove; rw [hget, hmax]

/-- A Spider position (any variant serves: the purity statement quantifies
over all three rule sets). -/
def c9Game : Game :=
  ⟨.spider 1,
    { piles := [⟨.tableau, "tableau-0", [⟨.spades, 4, true⟩]⟩,
                ⟨.tableau, "tableau-1", [⟨.spades, 5, true⟩]⟩,
                ⟨.foundation, "foundation-0", []⟩,
                ⟨.stock, "stock", []⟩],
      undoStack := [], moveCount := 3, won := false }⟩

theorem canMove_pure_witness :
    c9Game.state.piles = c9Game.state.piles
      ∧ (Game.canMoveStep c9Game [⟨.spades, 4, true⟩]
            (some "tableau-0") "tableau-1").2 = c9Game :=
  ⟨rfl, (canMove_pure c9Game c9Game.state c9Game.state [⟨.spades, 4, true⟩]
    (some "tableau-0") "tableau-1" rfl).1⟩

/-- The multi-card list of C10: two red hearts, not descending — not a
valid sequence in anyone's book. -/
def c10Cards : List Card := [⟨.hearts, 6, true⟩, ⟨.hearts, 9, true⟩]

/-- Klondike destination: a black 7 on top of tableau `t0`. -/
def c10KGame : Game :=
  ⟨.klondike 1,
    { piles := [⟨.tableau, "t0", [⟨.spades, 7, true⟩]⟩,
                ⟨.tableau, "src", [⟨.hearts, 6, true⟩, ⟨.hearts, 9, true⟩]⟩],
      undoStack := [], moveCount := 0, won := false }⟩

/-- Same board for the Spider rules. -/
def c10SGame : Game := ⟨.spider 4, c10KGame.state⟩

/-- Same board plus four empty free cells for the FreeCell rules (so the
supermove capacity is 5 and only the sequence check can reject). -/
def c10FGame : Game :=
  ⟨.freecell,
    { piles := [⟨.tableau, "t0", [⟨.spades, 7, true⟩]⟩,
                ⟨.tableau, "src", [⟨.hearts, 6, true⟩, ⟨.hearts, 9, true⟩]⟩,
                ⟨.freecell, "freecell-0", []⟩,
                ⟨.freecell, "freecell-1", []⟩,
                ⟨.freecell, "freecell-2", []⟩,
                ⟨.freecell, "freecell-3", []⟩],
      undoStack := [], moveCount := 0, won := false }⟩

/-- C10: Klondike `canMove` never inspects the internal ordering of a
multi-card move: the two-card list `[red 6, red 9]` is not an
alternating-color descending sequence, its first card is one rank below and
of the other color than the destination top (black 7), and Klondike accepts
it — while Spider and FreeCell (same board, capacity 5) reject it. -/
theorem klondike_canMove_ignores_sequence_order :
    1 < c10Cards.length
      ∧ FreeCellGame.isAltDescending c10Cards = false
      ∧ (c10Cards.head?.map Card.color ≠
          ((⟨.spades, 7, true⟩ : Card) :: []).head?.map Card.color)
      ∧ Game.canMove c10KGame c10Cards (some "src") "t0" = true
      ∧ FreeCellGame.maxMovable c10FGame.state "t0" = 5
      ∧ Game.canMove c10FGame c10Cards (some "src") "t0" = false
      ∧ Game.canMove c10SGame c10Cards (some "src") "t0" = false := by
  decide

/-- C3: FreeCell supermove capacity: a move onto a tableau pile whose card
count exceeds `(1 + empty freecells) * 2 ^ (empty non-target tableau
piles)` is rejected by `canMove`, whatever the cards are. -/
theorem freecell_supermove_capacity (s : GameState) (cards : List Card)
    (fromId : Option String) (toId : String) (tp : Pile)
    (htp : s.getPile toId = some tp) (htab : tp.type = PileType.tableau)
    (hcount : cards.length > FreeCellGame.maxMovable s toId) :
    FreeCellGame.canMove s cards fromId toId = false := by
  unfold FreeCellGame.canMove
  rw [htp]
  dsimp only
  by_cases he : cards.isEmpty
  · rw [if_pos he]
  · rw [if_neg he]
    by_cases hf : fromId = some toId
    · rw [if_pos hf]
    · rw [if_neg hf]
      cases hh : cards.head? with
      | none => rfl
      | some bc =>
        rw [htab]
        dsimp only
        rw [if_pos hcount]

/-- FreeCell board for the capacity witness: 2 of 4 freecells empty, one
empty tableau column that is not the target, a black 8 on the target, and a
validly ordered 7-card alternating run on the source. -/
def c3Game : Game :=
  ⟨.freecell,
    { piles := [⟨.tableau, "tableau-0", [⟨.spades, 8, true⟩]⟩,
                ⟨.tableau, "tableau-1", []⟩,
                ⟨.tableau, "tableau-2",
                  [⟨.hearts, 7, true⟩, ⟨.clubs, 6, true⟩, ⟨.diamonds, 5, true⟩,
                   ⟨.spades, 4, true⟩, ⟨.hearts, 3, true⟩, ⟨.clubs, 2, true⟩,
                   ⟨.diamonds, 1, true⟩]⟩,
                ⟨.freecell, "freecell-0", []⟩,
                ⟨.freecell, "freecell-1", []⟩,
                ⟨.freecell, "freecell-2", [⟨.spades, 13, true⟩]⟩,
                ⟨.freecell, "freecell-3", [⟨.clubs, 13, true⟩]⟩,
                ⟨.foundation, "foundation-0", []⟩],
      undoStack := [], moveCount := 0, won := false }⟩

/-- The 7 cards lifted from `tableau-2` in the C3 scenario. -/
def c3Cards : List Card :=
  [⟨.hearts, 7, true⟩, ⟨.clubs, 6, true⟩, ⟨.diamonds, 5, true⟩,
   ⟨.spades, 4, true⟩, ⟨.hearts, 3, true⟩, ⟨.clubs, 2, true⟩,
   ⟨.diamonds, 1, true⟩]

theorem freecell_supermove_capacity_witness :
    FreeCellGame.maxMovable c3Game.state "tableau-0" = 6
      ∧ FreeCellGame.isAltDescending c3Cards = true
      ∧ c3Cards.length = 7
      ∧ FreeCellGame.canMove c3Game.state c3Cards (some "tableau-2") "tableau-0"
          = false := by
  refine ⟨by decide, by decide, by decide, ?_⟩
  exact freecell_supermove_capacity c3Game.state c3Cards (some "tableau-2")
    "tableau-0" ⟨.tableau, "tableau-0", [⟨.spades, 8, true⟩]⟩
    (by decide) (by decide) (by decide)

lemma tryMove_false_state {g : Game} {fromId toId : String} {k : Nat}
    {g2 : Game} (h : GameController.tryMove g fromId toId k = (false, g2)) :
    g2 = g := by
  unfold GameController.tryMove at h
  cases hfp : g.state.getPile fromId with
  | none => rw [hfp] at h; exact ((Prod.mk.injEq _ _ _ _).mp h).2.symm
  | some fp =>
    rw [hfp] at h
    dsimp only at h
    split at h
    · exact ((Prod.mk.injEq _ _ _ _).mp h).2.symm
    · split at h <;> exact absurd ((Prod.mk.injEq _ _ _ _).mp h).1 (by simp)

/-- Stock with one card: one orchestrated stock click then an undo. -/
def c6Game : Game :=
  ⟨.klondike 1,
    { piles := [⟨.stock, "stock", [⟨.spades, 5, false⟩]⟩,
                ⟨.waste, "waste", []⟩],
      undoStack := [], moveCount := 0, won := false }⟩

/-- C6 counterexample: `undo` after an orchestrated stock click brings
`moveCount` from 1 back to 0, so the counter is not monotonic over the
public interface. -/
theorem moveCount_decreases_on_undo :
    (GameController.undo (GameController.onStockClick c6Game)).state.moveCount
      < (GameController.onStockClick c6Game).state.moveCount := by decide

/-- C6 amended: `moveCount` is a natural-number counter starting at 0;
`tryMove` never decreases it and an orchestrated stock click increments it
by one, but `undo` restores it to the value stored in the popped snapshot
(which is smaller after an action); with an empty undo stack `undo` is a
no-op. -/
theorem moveCount_counter_behaviour (g : Game) (fromId toId : String)
    (k : Nat) :
    g.state.moveCount ≤ (GameController.tryMove g fromId toId k).2.state.moveCount
      ∧ (GameController.onStockClick g).state.moveCount = g.state.moveCount + 1
      ∧ (g.state.undoStack = [] → GameController.undo g = g)
      ∧ ∀ e rest, g.state.undoStack = e :: rest →
          (GameController.undo g).state.moveCount = e.moveCount := by
  refine ⟨?_, (ctrl_onStockClick_state g).2.2, ?_, ?_⟩
  · rcases htm : GameController.tryMove g fromId toId k with ⟨b, g2⟩
    cases b
    · show g.state.moveCount ≤ g2.state.moveCount
      rw [tryMove_false_state htm]
    · show g.state.moveCount ≤ g2.state.moveCount
      rw [(tryMove_success_state htm).2.2]; omega
  · intro h; unfold GameController.undo; rw [h]
  · intro e rest h; unfold GameController.undo; rw [h]; rfl

/-- A game carrying one undo entry with a recorded move count of 7. -/
def c6WGame : Game :=
  ⟨.klondike 1,
    { piles := [⟨.stock, "stock", []⟩, ⟨.waste, "waste", []⟩],
      undoStack := [⟨[⟨"stock", .stock, []⟩, ⟨"waste", .waste, []⟩], 7⟩],
      moveCount := 9, won := false }⟩

theorem moveCount_counter_behaviour_witness :
    c6WGame.state.undoStack
        = ⟨[⟨"stock", .stock, []⟩, ⟨"waste", .waste, []⟩], 7⟩ :: []
      ∧ (GameController.undo c6WGame).state.moveCount = 7 :=
  ⟨rfl, (moveCount_counter_behaviour c6WGame "a" "b" 0).2.2.2
    ⟨[⟨"stock", .stock, []⟩, ⟨"waste", .waste, []⟩], 7⟩ [] rfl⟩

/-! ### Klondike stock click, resolved -/

lemma recycleAux_spec (l : List Card) :
    ∀ acc, recycleAux l acc = acc ++ l.map setFaceDown := by
  induction l with
  | nil => intro acc; simp [recycleAux]
  | cons c rest ih => intro acc; rw [recycleAux, ih]; simp

lemma drawAux_spec :
    ∀ (n : Nat) (stock waste : List Card), n ≤ stock.length →
      drawAux n stock waste
        = (stock.take (stock.length - n),
           waste ++ (stock.drop (stock.length - n)).reverse.map setFaceUp) := by
  intro n
  induction n with
  | zero => intro stock waste _; simp [drawAux]
  | succ n ih =>
    intro stock waste h
    have hne : stock ≠ [] := by
      intro hc; subst hc; simp at h
    rw [drawAux, List.getLast?_eq_getLast stock hne]
    dsimp only
    have hlen : stock.dropLast.length = stock.length - 1 := List.length_dropLast ..
    have hn : n ≤ stock.dropLast.length := by rw [hlen]; omega
    have hsplit : stock.dropLast ++ [stock.getLast hne] = stock :=
      List.dropLast_append_getLast hne
    rw [ih stock.dropLast _ hn, hlen]
    have hidx : stock.length - (n + 1) = stock.length - 1 - n := by omega
    rw [hidx]
    set m := stock.length - 1 - n with hm
    have hmle : m ≤ stock.dropLast.length := by rw [hlen]; omega
    refine Prod.ext ?_ ?_ <;> dsimp only
    · rw [List.dropLast_eq_take, List.take_take]
      congr 1
      omega
    · have hdrop : stock.drop m = stock.dropLast.drop m ++ [stock.getLast hne] := by
        conv_lhs => rw [← hsplit]
        rw [List.drop_append_of_le_length hmle]
      rw [hdrop]
      simp

/-- C5: Klondike stock interaction. With an empty stock, `onStockClick`
recycles the whole waste onto the stock in pop (LIFO) order, all face-down,
and empties the waste — the new stock list is the reverse of the waste
list. With a non-empty stock it moves exactly `min(drawCount, stock size)`
cards from the stock top onto the waste top, each face-up. -/
theorem klondike_stock_click (s : GameState) (dc : Nat) (st wa : Pile)
    (hst : s.getPile "stock" = some st) (hwa : s.getPile "waste" = some wa) :
    (st.cards = [] →
        (KlondikeGame.onStockClick s dc).getPile "waste"
            = some { wa with cards := [] }
          ∧ (KlondikeGame.onStockClick s dc).getPile "stock"
            = some { st with cards := wa.cards.reverse.map setFaceDown })
      ∧ (st.cards ≠ [] →
          (KlondikeGame.onStockClick s dc).getPile "stock"
              = some { st with cards :=
                  st.cards.take (st.cards.length - min dc st.cards.length) }
            ∧ (KlondikeGame.onStockClick s dc).getPile "waste"
              = some { wa with cards := wa.cards ++
                  ((st.cards.drop
                      (st.cards.length - min dc st.cards.length)).reverse.map
                    setFaceUp) }) := by
  have hws : ("waste" : String) ≠ "stock" := by decide
  have hsw : ("stock" : String) ≠ "waste" := by decide
  unfold KlondikeGame.onStockClick
  rw [hst, hwa]
  dsimp only
  constructor
  · intro hempty
    rw [if_pos (by simp [Pile.isEmpty, hempty])]
    constructor
    · rw [getPile_modify_ne _ hws, getPile_modify_self _ hwa]
    · rw [getPile_modify_self _ (by rw [getPile_modify_ne _ hsw]; exact hst)]
      rw [recycleAux_spec, hempty]
      rfl
  · intro hne
    rw [if_neg (by simp [Pile.isEmpty, hne])]
    rw [drawAux_spec (min dc st.cards.length) st.cards wa.cards
      (Nat.min_le_right ..)]
    constructor
    · rw [getPile_modify_ne _ hsw, getPile_modify_self _ hst]
    · rw [getPile_modify_self _ (by rw [getPile_modify_ne _ hws]; exact hwa)]

/-- Klondike draw-3 position with two stock cards and one waste card. -/
def c5State : GameState :=
  { piles := [⟨.stock, "stock", [⟨.spades, 9, false⟩, ⟨.hearts, 4, false⟩]⟩,
              ⟨.waste, "waste", [⟨.clubs, 11, true⟩]⟩,
              ⟨.tableau, "tableau-0", [⟨.diamonds, 2, true⟩]⟩],
    undoStack := [], moveCount := 0, won := false }

theorem klondike_stock_click_witness :
    c5State.getPile "stock"
        = some ⟨.stock, "stock", [⟨.spades, 9, false⟩, ⟨.hearts, 4, false⟩]⟩
      ∧ ([⟨.spades, 9, false⟩, ⟨.hearts, 4, false⟩] : List Card) ≠ []
      ∧ ((KlondikeGame.onStockClick c5State 3).getPile "stock"
            = some ⟨.stock, "stock",
                ([⟨.spades, 9, false⟩, ⟨.hearts, 4, false⟩] : List Card).take
                  (([⟨.spades, 9, false⟩, ⟨.hearts, 4, false⟩] : List Card).length
                    - min 3 ([⟨.spades, 9, false⟩,
                        ⟨.hearts, 4, false⟩] : List Card).length)⟩
          ∧ (KlondikeGame.onStockClick c5State 3).getPile "waste"
            = some ⟨.waste, "waste", [⟨.clubs, 11, true⟩] ++
                ((([⟨.spades, 9, false⟩, ⟨.hearts, 4, false⟩] : List Card).drop
                    (([⟨.spades, 9, false⟩,
                        ⟨.hearts, 4, false⟩] : List Card).length
                      - min 3 ([⟨.spades, 9, false⟩,
                          ⟨.hearts, 4, false⟩] : List Card).length)).reverse.map
                  setFaceUp)⟩) :=
  ⟨by decide, by decide,
    (klondike_stock_click c5State 3
      ⟨.stock, "stock", [⟨.spades, 9, false⟩, ⟨.hearts, 4, false⟩]⟩
      ⟨.waste, "waste", [⟨.clubs, 11, true⟩]⟩ (by decide) (by decide)).2
      (by decide)⟩

/-! ### Which pile ids carry which types -/

/-- No pile of type `t` has the id `pid` (a fact about the skeleton, so it
transports along `SameShape`). -/
def TypeIdsExclude (s : GameState) (t : PileType) (pid : String) : Prop :=
  ∀ pr ∈ pilesSkeleton s, pr.2 = t → pr.1 ≠ pid

instance (s : GameState) (t : PileType) (pid : String) :
    Decidable (TypeIdsExclude s t pid) := by
  unfold TypeIdsExclude
  infer_instance

lemma typeIdsExclude_of_sameShape {s s' : GameState} (h : SameShape s s')
    {t : PileType} {pid : String} (he : TypeIdsExclude s t pid) :
    TypeIdsExclude s' t pid := by
  unfold TypeIdsExclude at *
  rw [h.1]; exact he

lemma typeIdsExclude_of_getPile {s : GameState} {p : Pile} {pid : String}
    (wf : NodupIds s) (hp : s.getPile pid = some p) {t : PileType}
    (ht : p.type ≠ t) : TypeIdsExclude s t pid := by
  intro pr hpr hprt hpid
  obtain ⟨q, hq, hqe⟩ := List.mem_map.mp hpr
  have hqid : q.id = pid := by rw [← hpid, ← hqe]
  have : s.getPile pid = some q := by rw [← hqid]; exact getPile_of_mem wf hq
  rw [hp] at this
  obtain rfl := Option.some.injEq .. ▸ this.symm
  have : q.type = t := by rw [← hprt, ← hqe]
  exact ht this

lemma filter_type_modify (l : List Pile) (t : PileType) (pid : String)
    (f : List Card → List Card)
    (h : ∀ p ∈ l, p.type = t → p.id ≠ pid) :
    (l.map (fun p => if p.id = pid then { p with cards := f p.cards } else p)).filter
        (fun p => p.type = t)
      = l.filter (fun p => p.type = t) := by
  induction l with
  | nil => rfl
  | cons q l ih =>
    have hrest : ∀ p ∈ l, p.type = t → p.id ≠ pid :=
      fun p hp => h p (List.mem_cons_of_mem q hp)
    rw [List.map_cons]
    by_cases hq : q.id = pid
    · have hqt : ¬ q.type = t := fun ht => h q (List.mem_cons_self ..) ht hq
      rw [List.filter_cons_of_neg (by simpa [modifier_type] using hqt),
        List.filter_cons_of_neg (by simpa using hqt)]
      exact ih hrest
    · rw [if_neg hq]
      by_cases hqt : q.type = t
      · rw [List.filter_cons_of_pos (by simpa using hqt),
          List.filter_cons_of_pos (by simpa using hqt), ih hrest]
      · rw [List.filter_cons_of_neg (by simpa using hqt),
          List.filter_cons_of_neg (by simpa using hqt)]
        exact ih hrest

lemma getPilesByType_modify_excluded {s : GameState} {t : PileType}
    {pid : String} (f : List Card → List Card)
    (h : TypeIdsExclude s t pid) :
    (s.modifyPileCards pid f).getPilesByType t = s.getPilesByType t := by
  unfold GameState.getPilesByType GameState.modifyPileCards
  refine filter_type_modify s.piles t pid f ?_
  intro p hp hpt
  exact h (p.id, p.type) (List.mem_map_of_mem _ hp) hpt

lemma flipSourceTop_getPile_ne {s : GameState} {fromId qid : String}
    (h : qid ≠ fromId) :
    (flipSourceTop s fromId).getPile qid = s.getPile qid := by
  unfold flipSourceTop
  cases s.getPile fromId with
  | none => rfl
  | some p =>
    dsimp only
    split
    · exact getPile_modify_ne _ h
    · rfl

lemma flipSourceTop_foundations {s : GameState} {fromId : String}
    (h : TypeIdsExclude s PileType.foundation fromId) :
    (flipSourceTop s fromId).getPilesByType .foundation
      = s.getPilesByType .foundation := by
  unfold flipSourceTop
  cases s.getPile fromId with
  | none => rfl
  | some p =>
    dsimp only
    split
    · exact getPilesByType_modify_excluded _ h
    · rfl

/-- `flipSourceTop` never changes the foundation piles: it only modifies a
pile it has checked to be of type tableau, the unique pile with its id. -/
lemma flipSourceTop_foundations_wf {s : GameState} {fromId : String}
    (wf : NodupIds s) :
    (flipSourceTop s fromId).getPilesByType .foundation
      = s.getPilesByType .foundation := by
  unfold flipSourceTop
  cases hp : s.getPile fromId with
  | none => rfl
  | some p =>
    dsimp only
    split
    · rename_i hcond
      exact getPilesByType_modify_excluded _
        (typeIdsExclude_of_getPile wf hp (by rw [hcond.1]; simp))
    · rfl

/-! ### Facts extracted from a positive `canMove` -/

lemma klondike_canMove_true {s : GameState} {cards : List Card}
    {fromId : Option String} {toId : String}
    (h : KlondikeGame.canMove s cards fromId toId = true) :
    cards ≠ [] ∧ fromId ≠ some toId := by
  unfold KlondikeGame.canMove at h
  cases hgp : s.getPile toId with
  | none => rw [hgp] at h; cases h
  | some tp =>
    rw [hgp] at h
    dsimp only at h
    by_cases he : cards.isEmpty
    · rw [if_pos he] at h; cases h
    · rw [if_neg he] at h
      by_cases hf : fromId = some toId
      · rw [if_pos hf] at h; cases h
      · exact ⟨by simpa using he, hf⟩

lemma spider_canMove_true {s : GameState} {cards : List Card}
    {fromId : Option String} {toId : String}
    (h : SpiderGame.canMove s cards fromId toId = true) :
    cards ≠ [] ∧ fromId ≠ some toId
      ∧ ∃ tp, s.getPile toId = some tp ∧ tp.type = PileType.tableau := by
  unfold SpiderGame.canMove at h
  cases hgp : s.getPile toId with
  | none => rw [hgp] at h; cases h
  | some tp =>
    rw [hgp] at h
    dsimp only at h
    by_cases he : cards.isEmpty
    · rw [if_pos he] at h; cases h
    · rw [if_neg he] at h
      by_cases hf : fromId = some toId
      · rw [if_pos hf] at h; cases h
      · rw [if_neg hf] at h
        by_cases ht : tp.type ≠ PileType.tableau
        · rw [if_pos ht] at h; cases h
        · exact ⟨by simpa using he, hf, tp, rfl, not_not.mp ht⟩

lemma freecell_canMove_true {s : GameState} {cards : List Card}
    {fromId : Option String} {toId : String}
    (h : FreeCellGame.canMove s cards fromId toId = true) :
    cards ≠ [] ∧ fromId ≠ some toId := by
  unfold FreeCellGame.canMove at h
  cases hgp : s.getPile toId with
  | none => rw [hgp] at h; cases h
  | some tp =>
    rw [hgp] at h
    dsimp only at h
    by_cases he : cards.isEmpty
    · rw [if_pos he] at h; cases h
    · rw [if_neg he] at h
      by_cases hf : fromId = some toId
      · rw [if_pos hf] at h; cases h
      · exact ⟨by simpa using he, hf⟩

lemma game_canMove_true {g : Game} {cards : List Card}
    {fromId : Option String} {toId : String}
    (h : g.canMove cards fromId toId = true) :
    cards ≠ [] ∧ fromId ≠ some toId := by
  unfold Game.canMove at h
  cases hv : g.variant with
  | klondike dc => rw [hv] at h; exact klondike_canMove_true h
  | spider sc =>
    rw [hv] at h
    obtain ⟨h1, h2, _⟩ := spider_canMove_true h
    exact ⟨h1, h2⟩
  | freecell => rw [hv] at h; exact freecell_canMove_true h

/-! ### Behaviour of the Spider completed-sequence check -/

lemma kingToAceRun_head (su : Suit) :
    (kingToAceRun su).head? = some ⟨su, 13, true⟩ := rfl

lemma checkComplete_nop_none {s : GameState} {pid : String}
    (hgp : s.getPile pid = none) :
    SpiderGame.checkCompleteSequence s pid = s := by
  unfold SpiderGame.checkCompleteSequence
  rw [hgp]

lemma checkComplete_nop_short {s : GameState} {pid : String} {p : Pile}
    (hp : s.getPile pid = some p) (h : p.cards.length < 13) :
    SpiderGame.checkCompleteSequence s pid = s := by
  unfold SpiderGame.checkCompleteSequence
  rw [hp]
  dsimp only
  rw [if_pos h]

lemma checkComplete_nop_norun {s : GameState} {pid : String} {p : Pile}
    (hp : s.getPile pid = some p) (hlen : 13 ≤ p.cards.length)
    (h : ∀ su, p.cards.drop (p.cards.length - 13) ≠ kingToAceRun su) :
    SpiderGame.checkCompleteSequence s pid = s := by
  unfold SpiderGame.checkCompleteSequence
  rw [hp]
  dsimp only
  rw [if_neg (by omega)]
  cases hh : (p.cards.drop (p.cards.length - 13)).head? with
  | none => rfl
  | some c0 =>
    dsimp only
    rw [if_neg (h c0.suit)]

lemma checkComplete_nop_nofoundation {s : GameState} {pid : String} {p : Pile}
    (hp : s.getPile pid = some p)
    (hfound : (s.getPilesByType .foundation).find? (fun q => q.isEmpty) = none) :
    SpiderGame.checkCompleteSequence s pid = s := by
  unfold SpiderGame.checkCompleteSequence
  rw [hp]
  dsimp only
  by_cases hlen : p.cards.length < 13
  · rw [if_pos hlen]
  · rw [if_neg hlen]
    cases hh : (p.cards.drop (p.cards.length - 13)).head? with
    | none => rfl
    | some c0 =>
      dsimp only
      by_cases hrun : p.cards.drop (p.cards.length - 13) = kingToAceRun c0.suit
      · rw [if_pos hrun, hfound]
      · rw [if_neg hrun]

lemma checkComplete_getPile_ne {s : GameState} {pid qid : String}
    (hq : qid ≠ pid) (hqf : TypeIdsExclude s PileType.foundation qid) :
    (SpiderGame.checkCompleteSequence s pid).getPile qid = s.getPile qid := by
  unfold SpiderGame.checkCompleteSequence
  cases hgp : s.getPile pid with
  | none => rfl
  | some p =>
    dsimp only
    split
    · rfl
    · cases hh : (p.cards.drop (p.cards.length - 13)).head? with
      | none => rfl
      | some c0 =>
        dsimp only
        split
        · cases hfound : (s.getPilesByType .foundation).find? (fun q => q.isEmpty) with
          | none => rfl
          | some f =>
            have hfmem : f ∈ s.getPilesByType .foundation :=
              List.mem_of_find?_eq_some hfound
            have hff : f.type = PileType.foundation := by
              simpa using (List.mem_filter.mp hfmem).2
            have hfq : qid ≠ f.id := by
              intro hEq
              exact hqf (f.id, f.type)
                (List.mem_map_of_mem _ (List.mem_filter.mp hfmem).1) hff hEq.symm
            rw [getPile_modify_ne _ hq, getPile_modify_ne _ hfq,
              getPile_modify_ne _ hq]
        · rfl

/-- A pile other than the scanned one and the collect target is untouched
by the completed-sequence check. -/
lemma checkComplete_getPile_ne_of_found {s : GameState} {pid qid : String}
    {f : Pile} (hq : qid ≠ pid)
    (hfound : (s.getPilesByType .foundation).find? (fun q => q.isEmpty)
      = some f)
    (hqf : qid ≠ f.id) :
    (SpiderGame.checkCompleteSequence s pid).getPile qid = s.getPile qid := by
  unfold SpiderGame.checkCompleteSequence
  cases hgp : s.getPile pid with
  | none => rfl
  | some p =>
    dsimp only
    split
    · rfl
    · cases hh : (p.cards.drop (p.cards.length - 13)).head? with
      | none => rfl
      | some c0 =>
        dsimp only
        split
        · rw [hfound]
          dsimp only
          rw [getPile_modify_ne _ hq, getPile_modify_ne _ hqf,
            getPile_modify_ne _ hq]
        · rfl

lemma checkComplete_collect {s : GameState} {pid : String} {p : Pile}
    {su : Suit} {f : Pile} (wf : NodupIds s) (hp : s.getPile pid = some p)
    (hlen : 13 ≤ p.cards.length)
    (hrun : p.cards.drop (p.cards.length - 13) = kingToAceRun su)
    (hfound : (s.getPilesByType .foundation).find? (fun q => q.isEmpty) = some f) :
    (SpiderGame.checkCompleteSequence s pid).getPile pid
        = some { p with cards :=
            setLastFaceUp (p.cards.take (p.cards.length - 13)) }
      ∧ (SpiderGame.checkCompleteSequence s pid).getPile f.id
        = some { f with cards := f.cards ++ kingToAceRun su } := by
  have hfmem : f ∈ s.getPilesByType .foundation := List.mem_of_find?_eq_some hfound
  have hfpiles : f ∈ s.piles := (List.mem_filter.mp hfmem).1
  have hfempty : f.cards = [] := by
    have := List.find?_some hfound
    simpa [Pile.isEmpty] using this
  have hne : f.id ≠ pid := by
    intro hEq
    have h1 : s.getPile f.id = some f := getPile_of_mem wf hfpiles
    rw [hEq, hp] at h1
    have hpf : p = f := by injection h1
    rw [hpf, hfempty] at hlen
    simp at hlen
  unfold SpiderGame.checkCompleteSequence
  rw [hp]
  dsimp only
  rw [if_neg (by omega)]
  rw [hrun, kingToAceRun_head]
  dsimp only
  rw [if_pos rfl, hfound]
  dsimp only
  refine ⟨?_, ?_⟩
  · have h1 : (s.modifyPileCards pid
          (fun cs => cs.take (p.cards.length - 13))).getPile pid
        = some { p with cards := p.cards.take (p.cards.length - 13) } :=
      getPile_modify_self _ hp
    have h2 : ((s.modifyPileCards pid
            (fun cs => cs.take (p.cards.length - 13))).modifyPileCards
          f.id (fun cs => cs ++ kingToAceRun su)).getPile pid
        = some { p with cards := p.cards.take (p.cards.length - 13) } := by
      rw [getPile_modify_ne _ (Ne.symm hne)]
      exact h1
    exact getPile_modify_self setLastFaceUp h2
  · have h1 : (s.modifyPileCards pid
          (fun cs => cs.take (p.cards.length - 13))).getPile f.id = some f := by
      rw [getPile_modify_ne _ hne]
      exact getPile_of_mem wf hfpiles
    have h2 : ((s.modifyPileCards pid
            (fun cs => cs.take (p.cards.length - 13))).modifyPileCards
          f.id (fun cs => cs ++ kingToAceRun su)).getPile f.id
        = some { f with cards := f.cards ++ kingToAceRun su } :=
      getPile_modify_self _ h1
    rw [getPile_modify_ne _ hne]
    exact h2

lemma getPile_congr {s1 s2 : GameState} (h : s1.piles = s2.piles)
    (pid : String) : s1.getPile pid = s2.getPile pid := by
  unfold GameState.getPile
  rw [h]

lemma getPile_pushUndo (s : GameState) (pid : String) :
    (s.pushUndo).getPile pid = s.getPile pid := rfl

lemma flipSourceTop_getPile_self {s : GameState} {fromId : String} {p : Pile}
    (hp : s.getPile fromId = some p) :
    (flipSourceTop s fromId).getPile fromId = some p
      ∨ (flipSourceTop s fromId).getPile fromId
          = some { p with cards := setLastFaceUp p.cards } := by
  unfold flipSourceTop
  rw [hp]
  dsimp only
  split
  · right; exact getPile_modify_self _ hp
  · left; exact hp

lemma typeIdsExclude_of_skeleton {s s' : GameState} {t : PileType}
    {pid : String} (h : pilesSkeleton s' = pilesSkeleton s)
    (he : TypeIdsExclude s t pid) : TypeIdsExclude s' t pid := by
  unfold TypeIdsExclude at *
  rw [h]; exact he

/-- The state of `tryMove` right after the physical transfer (undo snapshot
pushed, source truncated at the lift index, cards appended to the
destination), before the `onMove` hook runs. -/
def movedState (g : Game) (fromId toId : String) (k : Nat) (fp : Pile) :
    GameState :=
  ((g.state.pushUndo).modifyPileCards fromId
      (fun cs => cs.take k)).modifyPileCards toId
    (fun cs => cs ++ fp.cards.drop k)

lemma tryMove_success_piles {g : Game} {fromId toId : String} {k : Nat}
    {g2 : Game} {fp : Pile} (hfp : g.state.getPile fromId = some fp)
    (htm : GameController.tryMove g fromId toId k = (true, g2)) :
    g.canMove (fp.cards.drop k) (some fromId) toId = true
      ∧ g2.state.piles
        = (Game.onMove { g with state := movedState g fromId toId k fp }
            fromId toId).state.piles := by
  unfold GameController.tryMove at htm
  rw [hfp] at htm
  dsimp only at htm
  cases hcm : g.canMove (fp.cards.drop k) (some fromId) toId with
  | false =>
    rw [if_pos (by simp [hcm])] at htm
    exact absurd (congrArg Prod.fst htm) (by simp)
  | true =>
    rw [if_neg (by simp [hcm])] at htm
    refine ⟨rfl, ?_⟩
    split at htm <;>
      [skip; skip] <;>
      · have hg2 := ((Prod.mk.injEq _ _ _ _).mp htm).2
        subst hg2
        rfl

lemma spider_onMove_collect {s : GameState} {fromId toId : String}
    {tp : Pile} {su : Suit} {f : Pile} (wf : NodupIds s)
    (hne : fromId ≠ toId)
    (htp : s.getPile toId = some tp)
    (hlen : 13 ≤ tp.cards.length)
    (hrun : tp.cards.drop (tp.cards.length - 13) = kingToAceRun su)
    (hfound : (s.getPilesByType .foundation).find? (fun q => q.isEmpty)
      = some f) :
    (SpiderGame.onMove s fromId toId).getPile toId
        = some { tp with cards :=
            setLastFaceUp (tp.cards.take (tp.cards.length - 13)) }
      ∧ (SpiderGame.onMove s fromId toId).getPile f.id
        = some { f with cards := f.cards ++ kingToAceRun su } := by
  unfold SpiderGame.onMove
  have hs1 : (flipSourceTop s fromId).getPile toId = some tp := by
    rw [flipSourceTop_getPile_ne (Ne.symm hne)]
    exact htp
  have wf1 : NodupIds (flipSourceTop s fromId) :=
    nodupIds_of_sameShape (sameShape_flipSourceTop ..) wf
  refine checkComplete_collect wf1 hs1 hlen hrun ?_
  rw [flipSourceTop_foundations_wf wf]
  exact hfound

lemma nodupIds_of_skeleton {s s' : GameState}
    (h : pilesSkeleton s' = pilesSkeleton s) (wf : NodupIds s) :
    NodupIds s' := by
  have hids : s'.piles.map Pile.id = s.piles.map Pile.id := by
    have := congrArg (List.map Prod.fst) h
    simpa [pilesSkeleton, List.map_map, Function.comp] using this
  unfold NodupIds
  rw [hids]
  exact wf

lemma movedState_getPile_from {g : Game} {fromId toId : String} {k : Nat}
    {fp : Pile} (hne : fromId ≠ toId)
    (hfp : g.state.getPile fromId = some fp) :
    (movedState g fromId toId k fp).getPile fromId
      = some { fp with cards := fp.cards.take k } := by
  unfold movedState
  rw [getPile_modify_ne _ hne]
  exact getPile_modify_self _ hfp

lemma movedState_getPile_to {g : Game} {fromId toId : String} {k : Nat}
    {fp tp : Pile} (hne : fromId ≠ toId)
    (htp : g.state.getPile toId = some tp) :
    (movedState g fromId toId k fp).getPile toId
      = some { tp with cards := tp.cards ++ fp.cards.drop k } := by
  unfold movedState
  have h1 : ((g.state.pushUndo).modifyPileCards fromId
      (fun cs => cs.take k)).getPile toId = some tp := by
    rw [getPile_modify_ne _ (Ne.symm hne)]
    exact htp
  exact getPile_modify_self _ h1

lemma movedState_skeleton (g : Game) (fromId toId : String) (k : Nat)
    (fp : Pile) :
    pilesSkeleton (movedState g fromId toId k fp) = pilesSkeleton g.state := by
  unfold movedState
  rw [(sameShape_modify ..).1, (sameShape_modify ..).1]
  rfl

lemma movedState_foundations {g : Game} {fromId toId : String} {k : Nat}
    {fp : Pile} (hexcf : TypeIdsExclude g.state .foundation fromId)
    (hexct : TypeIdsExclude g.state .foundation toId) :
    (movedState g fromId toId k fp).getPilesByType .foundation
      = g.state.getPilesByType .foundation := by
  unfold movedState
  rw [getPilesByType_modify_excluded _ (typeIdsExclude_of_skeleton
    (by rw [(sameShape_modify ..).1]; rfl) hexct)]
  rw [getPilesByType_modify_excluded _ (typeIdsExclude_of_skeleton
    (by rfl) hexcf)]
  rfl

/-- The Spider board of the C2 counterexample: moving the lone ace of
spades onto a face-up K..2 spades column completes a 13-card run, which
`onMove` auto-collects to the empty foundation. -/
def c2Game : Game :=
  ⟨.spider 1,
    { piles := [⟨.tableau, "tableau-0", [⟨.spades, 1, true⟩]⟩,
                ⟨.tableau, "tableau-1",
                  [⟨.spades, 13, true⟩, ⟨.spades, 12, true⟩,
                   ⟨.spades, 11, true⟩, ⟨.spades, 10, true⟩,
                   ⟨.spades, 9, true⟩, ⟨.spades, 8, true⟩,
                   ⟨.spades, 7, true⟩, ⟨.spades, 6, true⟩,
                   ⟨.spades, 5, true⟩, ⟨.spades, 4, true⟩,
                   ⟨.spades, 3, true⟩, ⟨.spades, 2, true⟩]⟩,
                ⟨.foundation, "foundation-0", []⟩,
                ⟨.stock, "stock", []⟩],
      undoStack := [], moveCount := 0, won := false }⟩

/-- C2 counterexample: a successful Spider `tryMove` after which the moved
card (the ace of spades) is *not* in the destination pile: the completed
run was auto-collected, leaving `tableau-1` empty, so move application as
claimed ("every moved card is present in toPile … in every variant,
including Spider") fails. -/
theorem move_exclusivity_fails_on_spider_autocollect :
    (GameController.tryMove c2Game "tableau-0" "tableau-1" 0).1 = true
      ∧ ((GameController.tryMove c2Game "tableau-0" "tableau-1" 0).2.state.getPile
            "tableau-1").map Pile.cards = some []
      ∧ ((GameController.tryMove c2Game "tableau-0" "tableau-1" 0).2.state.getPile
            "foundation-0").map (fun p => p.cards.contains ⟨.spades, 1, true⟩)
          = some true := by
  decide

/-- C2 (amended): after a successful `tryMove`, the source pile keeps
exactly its cards below the lift index (up to the auto-flip of its newly
exposed top card) and the destination holds its prior cards followed by the
moved cards in order — except in Spider when the transfer leaves the
destination's topmost 13 cards a complete face-up same-suit K→A run: if the
post-transfer state has an empty foundation, the destination keeps only the
cards below the run (top flipped) and the first empty foundation receives
the run, moved cards included (when that foundation is the source itself —
the lift emptied a source foundation — the run lands back on the source);
with no empty foundation the run stays in place and the normal rule
applies. -/
theorem move_exclusive_transfer (g : Game) (fromId toId : String) (k : Nat)
    (g2 : Game) (fp tp : Pile) (wf : NodupIds g.state)
    (hfp : g.state.getPile fromId = some fp)
    (htp : g.state.getPile toId = some tp)
    (htm : GameController.tryMove g fromId toId k = (true, g2)) :
    (∀ dc, g.variant = Variant.klondike dc →
        (∃ cs, g2.state.getPile fromId = some { fp with cards := cs }
            ∧ (cs = fp.cards.take k ∨ cs = setLastFaceUp (fp.cards.take k)))
          ∧ g2.state.getPile toId
            = some { tp with cards := tp.cards ++ fp.cards.drop k })
      ∧ (g.variant = Variant.freecell →
          g2.state.getPile fromId = some { fp with cards := fp.cards.take k }
            ∧ g2.state.getPile toId
              = some { tp with cards := tp.cards ++ fp.cards.drop k })
      ∧ (∀ sc, g.variant = Variant.spider sc →
          ((tp.cards ++ fp.cards.drop k).length < 13
            ∨ ∀ su, (tp.cards ++ fp.cards.drop k).drop
                ((tp.cards ++ fp.cards.drop k).length - 13)
              ≠ kingToAceRun su) →
          (∃ cs, g2.state.getPile fromId = some { fp with cards := cs }
              ∧ (cs = fp.cards.take k ∨ cs = setLastFaceUp (fp.cards.take k)))
            ∧ g2.state.getPile toId
              = some { tp with cards := tp.cards ++ fp.cards.drop k })
      ∧ (∀ sc su, g.variant = Variant.spider sc →
          13 ≤ (tp.cards ++ fp.cards.drop k).length →
          (tp.cards ++ fp.cards.drop k).drop
              ((tp.cards ++ fp.cards.drop k).length - 13) = kingToAceRun su →
          ((movedState g fromId toId k fp).getPilesByType .foundation).find?
              (fun q => q.isEmpty) = none →
          (∃ cs, g2.state.getPile fromId = some { fp with cards := cs }
              ∧ (cs = fp.cards.take k ∨ cs = setLastFaceUp (fp.cards.take k)))
            ∧ g2.state.getPile toId
              = some { tp with cards := tp.cards ++ fp.cards.drop k })
      ∧ (∀ sc su f, g.variant = Variant.spider sc →
          13 ≤ (tp.cards ++ fp.cards.drop k).length →
          (tp.cards ++ fp.cards.drop k).drop
              ((tp.cards ++ fp.cards.drop k).length - 13) = kingToAceRun su →
          ((movedState g fromId toId k fp).getPilesByType .foundation).find?
              (fun q => q.isEmpty) = some f →
          g2.state.getPile toId
              = some { tp with cards := setLastFaceUp ((tp.cards ++ fp.cards.drop k).take ((tp.cards ++ fp.cards.drop k).length - 13)) }
            ∧ g2.state.getPile f.id
              = some { f with cards := f.cards ++ kingToAceRun su }
            ∧ (f.id ≠ fromId →
                ∃ cs, g2.state.getPile fromId = some { fp with cards := cs }
                  ∧ (cs = fp.cards.take k
                      ∨ cs = setLastFaceUp (fp.cards.take k)))) := by
  obtain ⟨hcm, hpiles⟩ := tryMove_success_piles hfp htm
  obtain ⟨_, hfne⟩ := game_canMove_true hcm
  have hne : fromId ≠ toId := fun hEq => hfne (by rw [hEq])
  have hgp2 : ∀ pid, g2.state.getPile pid
      = (Game.onMove { g with state := movedState g fromId toId k fp }
          fromId toId).state.getPile pid :=
    fun pid => getPile_congr hpiles pid
  have hmfrom := @movedState_getPile_from g fromId toId k fp hne hfp
  have hmto := @movedState_getPile_to g fromId toId k fp tp hne htp
  have hmskel := movedState_skeleton g fromId toId k fp
  have wfm : NodupIds (movedState g fromId toId k fp) :=
    nodupIds_of_skeleton hmskel wf
  have hto1 : (flipSourceTop (movedState g fromId toId k fp)
      fromId).getPile toId
      = some { tp with cards := tp.cards ++ fp.cards.drop k } := by
    rw [flipSourceTop_getPile_ne (Ne.symm hne)]
    exact hmto
  refine ⟨?_, ?_, ?_, ?_, ?_⟩
  · -- Klondike
    intro dc hv
    constructor
    · rw [hgp2 fromId]
      unfold Game.onMove
      rw [hv]
      dsimp only
      unfold KlondikeGame.onMove
      rcases flipSourceTop_getPile_self hmfrom with h | h
      · exact ⟨fp.cards.take k, h, Or.inl rfl⟩
      · exact ⟨setLastFaceUp (fp.cards.take k), h, Or.inr rfl⟩
    · rw [hgp2 toId]
      unfold Game.onMove
      rw [hv]
      dsimp only
      unfold KlondikeGame.onMove
      rw [flipSourceTop_getPile_ne (Ne.symm hne)]
      exact hmto
  · -- FreeCell
    intro hv
    constructor
    · rw [hgp2 fromId]
      unfold Game.onMove
      rw [hv]
      dsimp only
      exact hmfrom
    · rw [hgp2 toId]
      unfold Game.onMove
      rw [hv]
      dsimp only
      exact hmto
  · -- Spider, no completed run on the destination
    intro sc hv hnorun
    have hnop : SpiderGame.checkCompleteSequence
        (flipSourceTop (movedState g fromId toId k fp) fromId) toId
        = flipSourceTop (movedState g fromId toId k fp) fromId := by
      by_cases hlen13 : (tp.cards ++ fp.cards.drop k).length < 13
      · exact checkComplete_nop_short hto1 hlen13
      · exact checkComplete_nop_norun hto1 (by dsimp only; omega)
          (hnorun.resolve_left hlen13)
    constructor
    · rw [hgp2 fromId]
      unfold Game.onMove
      rw [hv]
      dsimp only
      unfold SpiderGame.onMove
      rw [hnop]
      rcases flipSourceTop_getPile_self hmfrom with h | h
      · exact ⟨fp.cards.take k, h, Or.inl rfl⟩
      · exact ⟨setLastFaceUp (fp.cards.take k), h, Or.inr rfl⟩
    · rw [hgp2 toId]
      unfold Game.onMove
      rw [hv]
      dsimp only
      unfold SpiderGame.onMove
      rw [hnop]
      exact hto1
  · -- Spider, completed run but no empty foundation: the run stays
    intro sc su hv _ _ hnone
    have hnop : SpiderGame.checkCompleteSequence
        (flipSourceTop (movedState g fromId toId k fp) fromId) toId
        = flipSourceTop (movedState g fromId toId k fp) fromId := by
      refine checkComplete_nop_nofoundation hto1 ?_
      rw [flipSourceTop_foundations_wf wfm]
      exact hnone
    constructor
    · rw [hgp2 fromId]
      unfold Game.onMove
      rw [hv]
      dsimp only
      unfold SpiderGame.onMove
      rw [hnop]
      rcases flipSourceTop_getPile_self hmfrom with h | h
      · exact ⟨fp.cards.take k, h, Or.inl rfl⟩
      · exact ⟨setLastFaceUp (fp.cards.take k), h, Or.inr rfl⟩
    · rw [hgp2 toId]
      unfold Game.onMove
      rw [hv]
      dsimp only
      unfold SpiderGame.onMove
      rw [hnop]
      exact hto1
  · -- Spider, auto-collect
    intro sc su f hv hlen hrun hfound
    have wf1 : NodupIds (flipSourceTop (movedState g fromId toId k fp)
        fromId) := nodupIds_of_sameShape (sameShape_flipSourceTop ..) wfm
    have hf1 : ((flipSourceTop (movedState g fromId toId k fp)
          fromId).getPilesByType .foundation).find? (fun q => q.isEmpty)
        = some f := by
      rw [flipSourceTop_foundations_wf wfm]
      exact hfound
    have hcoll := checkComplete_collect wf1 hto1 hlen hrun hf1
    refine ⟨?_, ?_, ?_⟩
    · rw [hgp2 toId]
      unfold Game.onMove
      rw [hv]
      dsimp only
      unfold SpiderGame.onMove
      exact hcoll.1
    · rw [hgp2 f.id]
      unfold Game.onMove
      rw [hv]
      dsimp only
      unfold SpiderGame.onMove
      exact hcoll.2
    · intro hfid
      rw [hgp2 fromId]
      unfold Game.onMove
      rw [hv]
      dsimp only
      unfold SpiderGame.onMove
      rw [checkComplete_getPile_ne_of_found hne hf1 (Ne.symm hfid)]
      rcases flipSourceTop_getPile_self hmfrom with h | h
      · exact ⟨fp.cards.take k, h, Or.inl rfl⟩
      · exact ⟨setLastFaceUp (fp.cards.take k), h, Or.inr rfl⟩

/-- A Klondike board for the exclusivity witness: the black 5 moves onto
the red 6. -/
def c2WGame : Game :=
  ⟨.klondike 1,
    { piles := [⟨.tableau, "t0", [⟨.clubs, 5, true⟩]⟩,
                ⟨.tableau, "t1", [⟨.hearts, 6, true⟩]⟩,
                ⟨.foundation, "foundation-0", []⟩],
      undoStack := [], moveCount := 0, won := false }⟩

theorem move_exclusive_transfer_witness :
    NodupIds c2WGame.state
      ∧ GameController.tryMove c2WGame "t0" "t1" 0
          = (true, (GameController.tryMove c2WGame "t0" "t1" 0).2)
      ∧ (GameController.tryMove c2WGame "t0" "t1" 0).2.state.getPile "t1"
          = some { (⟨.tableau, "t1", [⟨.hearts, 6, true⟩]⟩ : Pile) with
              cards := [⟨.hearts, 6, true⟩] ++
                ([⟨.clubs, 5, true⟩] : List Card).drop 0 } := by
  refine ⟨by decide, by decide, ?_⟩
  exact ((move_exclusive_transfer c2WGame "t0" "t1" 0
    (GameController.tryMove c2WGame "t0" "t1" 0).2
    ⟨.tableau, "t0", [⟨.clubs, 5, true⟩]⟩
    ⟨.tableau, "t1", [⟨.hearts, 6, true⟩]⟩
    (by decide) (by decide) (by decide) (by decide)).1 1 rfl).2

/-! ### The Spider collect scan over all tableau piles -/

/-- The completed-sequence check does nothing on this pile: it is missing,
shorter than 13 cards, or its top 13 cards are not a complete K→A run. -/
def NopAt (s : GameState) (pid : String) : Prop :=
  s.getPile pid = none
    ∨ ∃ p, s.getPile pid = some p
        ∧ (p.cards.length < 13
            ∨ ∀ su, p.cards.drop (p.cards.length - 13) ≠ kingToAceRun su)

lemma checkComplete_nopAt {s : GameState} {pid : String} (h : NopAt s pid) :
    SpiderGame.checkCompleteSequence s pid = s := by
  rcases h with h | ⟨p, hp, hcase⟩
  · exact checkComplete_nop_none h
  · by_cases hlen : p.cards.length < 13
    · exact checkComplete_nop_short hp hlen
    · rcases hcase with hc | hc
      · exact absurd hc hlen
      · exact checkComplete_nop_norun hp (by omega) hc

lemma collect_fold_nop :
    ∀ (pids : List String) (s : GameState),
      (∀ pid ∈ pids, NopAt s pid) →
      pids.foldl (fun st pid => SpiderGame.checkCompleteSequence st pid) s
        = s := by
  intro pids
  induction pids with
  | nil => intro s _; rfl
  | cons pid rest ih =>
    intro s h
    have hstep : SpiderGame.checkCompleteSequence s pid = s :=
      checkComplete_nopAt (h pid (List.mem_cons_self ..))
    calc (pid :: rest).foldl
          (fun st pid => SpiderGame.checkCompleteSequence st pid) s
        = rest.foldl (fun st pid => SpiderGame.checkCompleteSequence st pid)
            (SpiderGame.checkCompleteSequence s pid) := rfl
      _ = rest.foldl (fun st pid => SpiderGame.checkCompleteSequence st pid) s := by
            rw [hstep]
      _ = s := ih s (fun q hq => h q (List.mem_cons_of_mem _ hq))

lemma collect_fold_single :
    ∀ (pids : List String), pids.Nodup →
      ∀ (s : GameState) (tid : String) (tp : Pile) (su : Suit) (f : Pile),
        tid ∈ pids →
        (∀ pid ∈ pids, pid ≠ tid → NopAt s pid) →
        (∀ pid ∈ pids, TypeIdsExclude s PileType.foundation pid) →
        NodupIds s →
        s.getPile tid = some tp →
        13 ≤ tp.cards.length →
        tp.cards.drop (tp.cards.length - 13) = kingToAceRun su →
        (s.getPilesByType .foundation).find? (fun q => q.isEmpty) = some f →
        (pids.foldl (fun st pid => SpiderGame.checkCompleteSequence st pid)
            s).getPile tid
            = some { tp with cards :=
                setLastFaceUp (tp.cards.take (tp.cards.length - 13)) }
          ∧ (pids.foldl (fun st pid => SpiderGame.checkCompleteSequence st pid)
              s).getPile f.id
            = some { f with cards := f.cards ++ kingToAceRun su } := by
  intro pids
  induction pids with
  | nil => intro _ s tid tp su f hmem; cases hmem
  | cons pid rest ih =>
    intro hnd s tid tp su f hmem hothers hexcl wf htp hlen hrun hfound
    by_cases hpid : pid = tid
    · subst hpid
      obtain ⟨h1, h2⟩ := checkComplete_collect wf htp hlen hrun hfound
      have hnop : ∀ q ∈ rest,
          NopAt (SpiderGame.checkCompleteSequence s pid) q := by
        intro q hq
        have hqne : q ≠ pid := by
          intro hEq
          subst hEq
          exact (List.nodup_cons.mp hnd).1 hq
        have hgq : (SpiderGame.checkCompleteSequence s pid).getPile q
            = s.getPile q :=
          checkComplete_getPile_ne hqne
            (hexcl q (List.mem_cons_of_mem _ hq))
        have := hothers q (List.mem_cons_of_mem _ hq) hqne
        unfold NopAt at this ⊢
        rw [hgq]
        exact this
      have hfold : rest.foldl
          (fun st pid => SpiderGame.checkCompleteSequence st pid)
          (SpiderGame.checkCompleteSequence s pid)
          = SpiderGame.checkCompleteSequence s pid :=
        collect_fold_nop rest _ hnop
      have heq : (pid :: rest).foldl
          (fun st pid => SpiderGame.checkCompleteSequence st pid) s
          = SpiderGame.checkCompleteSequence s pid := hfold
      rw [heq]
      exact ⟨h1, h2⟩
    · have hstep : SpiderGame.checkCompleteSequence s pid = s :=
        checkComplete_nopAt (hothers pid (List.mem_cons_self ..) hpid)
      have hmem' : tid ∈ rest := by
        rcases List.mem_cons.mp hmem with h | h
        · exact absurd h.symm hpid
        · exact h
      have hres := ih (List.nodup_cons.mp hnd).2 s tid tp su f hmem'
        (fun q hq => hothers q (List.mem_cons_of_mem _ hq))
        (fun q hq => hexcl q (List.mem_cons_of_mem _ hq))
        wf htp hlen hrun hfound
      have heq : (pid :: rest).foldl
          (fun st pid => SpiderGame.checkCompleteSequence st pid) s
          = rest.foldl (fun st pid => SpiderGame.checkCompleteSequence st pid)
              s := by
        show rest.foldl (fun st pid => SpiderGame.checkCompleteSequence st pid)
            (SpiderGame.checkCompleteSequence s pid)
          = rest.foldl (fun st pid => SpiderGame.checkCompleteSequence st pid) s
        rw [hstep]
      rw [heq]
      exact hres

lemma sameShape_postDealState (s : GameState) (cards : List Card) :
    SameShape s (SpiderGame.postDealState s cards) :=
  sameShape_trans (sameShape_dealLoop ..) (sameShape_modify ..)

lemma tableau_ids_nodup {s : GameState} (wf : NodupIds s) :
    ((s.getPilesByType .tableau).map Pile.id).Nodup := by
  unfold NodupIds at wf
  unfold GameState.getPilesByType
  exact List.Nodup.sublist (List.Sublist.map Pile.id (List.filter_sublist _)) wf

lemma tableau_id_excludes_foundations {s : GameState} (wf : NodupIds s)
    {pid : String} (hmem : pid ∈ (s.getPilesByType .tableau).map Pile.id) :
    TypeIdsExclude s PileType.foundation pid := by
  obtain ⟨q, hq, hqe⟩ := List.mem_map.mp hmem
  have hqp : q ∈ s.piles := (List.mem_filter.mp hq).1
  have hqt : q.type = PileType.tableau := by
    simpa using (List.mem_filter.mp hq).2
  subst hqe
  exact typeIdsExclude_of_getPile wf (getPile_of_mem wf hqp)
    (by rw [hqt]; simp)

lemma sameShape_collectScan (s0 : GameState) (pids : List String) :
    SameShape s0 (SpiderGame.collectScan s0 pids) :=
  sameShape_collectAll pids s0

/-- A pile whose id is not among the scanned ones (and is not a foundation
id) is untouched by the completed-sequence scan. -/
lemma collect_fold_getPile_ne :
    ∀ (pids : List String) (s : GameState) (qid : String),
      qid ∉ pids →
      TypeIdsExclude s PileType.foundation qid →
      (SpiderGame.collectScan s pids).getPile qid = s.getPile qid := by
  intro pids
  induction pids with
  | nil => intro s qid _ _; rfl
  | cons pid rest ih =>
    intro s qid hq hexc
    have hqpid : qid ≠ pid := by
      intro hEq
      exact hq (by rw [hEq]; exact List.mem_cons_self ..)
    have hstep : (SpiderGame.checkCompleteSequence s pid).getPile qid
        = s.getPile qid := checkComplete_getPile_ne hqpid hexc
    have hexc2 : TypeIdsExclude (SpiderGame.checkCompleteSequence s pid)
        PileType.foundation qid :=
      typeIdsExclude_of_sameShape (sameShape_checkComplete s pid) hexc
    have heq : SpiderGame.collectScan s (pid :: rest)
        = SpiderGame.collectScan (SpiderGame.checkCompleteSequence s pid)
            rest := rfl
    rw [heq, ih _ qid (fun h => hq (List.mem_cons_of_mem _ h)) hexc2, hstep]

/-- In a duplicate-free list the element at position `i` does not occur
among the first `i` elements. -/
lemma get_not_mem_take :
    ∀ (l : List String), l.Nodup → ∀ (i : Nat) (hi : i < l.length),
      l.get ⟨i, hi⟩ ∉ l.take i := by
  intro l
  induction l with
  | nil => intro _ i hi; exact absurd hi (Nat.not_lt_zero i)
  | cons a l ih =>
    intro hnd i hi
    cases i with
    | zero => simp
    | succ j =>
      have hji : j < l.length := by simpa using hi
      intro hmem
      rw [List.take_succ_cons] at hmem
      have hget : (a :: l).get ⟨j + 1, hi⟩ = l.get ⟨j, hji⟩ := rfl
      rw [hget] at hmem
      rcases List.mem_cons.mp hmem with h | h
      · have hmem2 : l.get ⟨j, hji⟩ ∈ l := l.get_mem j hji
        rw [h] at hmem2
        exact (List.nodup_cons.mp hnd).1 hmem2
      · exact ih (List.nodup_cons.mp hnd).2 j hji h

/-- One step of the scan: processing the first `i + 1` pile ids is the
completed-sequence check of the `i`-th id on the state left by the first
`i`. -/
lemma collectScan_take_succ (s0 : GameState) (pids : List String) (i : Nat)
    (hi : i < pids.length) :
    SpiderGame.collectScan s0 (pids.take (i + 1))
      = SpiderGame.checkCompleteSequence
          (SpiderGame.collectScan s0 (pids.take i)) (pids.get ⟨i, hi⟩) := by
  unfold SpiderGame.collectScan
  rw [List.take_succ, List.foldl_append]
  have hgi : pids[i]? = some (pids.get ⟨i, hi⟩) := by
    rw [List.getElem?_eq_getElem hi]
    rfl
  rw [hgi]
  rfl

/-- The Spider board of the C4 counterexample, as the `onMove` hook sees it
after a 2♠→3♠ transfer between the first two piles: the third tableau pile
already carries a complete face-up K→A spades run and a foundation is
empty, yet the invocation scans only the destination. -/
def c4State : GameState :=
  { piles := [⟨.tableau, "tableau-0", []⟩,
              ⟨.tableau, "tableau-1", [⟨.spades, 3, true⟩, ⟨.spades, 2, true⟩]⟩,
              ⟨.tableau, "tableau-2", kingToAceRun .spades⟩,
              ⟨.foundation, "foundation-0", []⟩,
              ⟨.stock, "stock", []⟩],
    undoStack := [], moveCount := 0, won := false }

/-- C4 counterexample: an `onMove` invocation that leaves a tableau pile
(`tableau-2`) whose topmost 13 cards are a complete face-up same-suit K→A
run, with an empty foundation available, yet removes nothing from it: the
hook only scans the destination pile. -/
theorem spider_auto_collect_not_global :
    ((SpiderGame.onMove c4State "tableau-0" "tableau-1").getPile
          "tableau-2").map Pile.cards = some (kingToAceRun .spades)
      ∧ ((SpiderGame.onMove c4State "tableau-0" "tableau-1").getPile
            "foundation-0").map Pile.cards = some []
      ∧ (kingToAceRun Suit.spades).length = 13
      ∧ (kingToAceRun Suit.spades).drop ((kingToAceRun Suit.spades).length - 13)
          = kingToAceRun .spades := by
  decide

/-- C4 (amended): the Spider auto-collect scans only the destination pile
in `onMove`, and in `onStockClick` scans every tableau pile in registration
order after the deal — each pile still carries its post-deal cards when its
turn comes, and the step applied to it is exactly the completed-sequence
check. Whenever a scanned pile's topmost 13 cards form a complete face-up
same-suit K→A run and an empty foundation exists at that moment, that same
invocation removes the 13 cards, pushes them onto the first empty
foundation (pile-insertion order) and flips the newly exposed card if
face-down; with no empty foundation (or no complete run) the scanned pile
is left unchanged. -/
theorem spider_auto_collect :
    (∀ (s : GameState) (fromId toId : String) (tp : Pile) (su : Suit)
        (f : Pile),
        NodupIds s → fromId ≠ toId →
        s.getPile toId = some tp →
        13 ≤ tp.cards.length →
        tp.cards.drop (tp.cards.length - 13) = kingToAceRun su →
        (s.getPilesByType .foundation).find? (fun q => q.isEmpty) = some f →
        (SpiderGame.onMove s fromId toId).getPile toId
            = some { tp with cards := setLastFaceUp (tp.cards.take (tp.cards.length - 13)) }
          ∧ (SpiderGame.onMove s fromId toId).getPile f.id
            = some { f with cards := f.cards ++ kingToAceRun su })
      ∧ (∀ (s : GameState) (fromId toId : String) (tp : Pile),
          NodupIds s → fromId ≠ toId →
          s.getPile toId = some tp →
          (s.getPilesByType .foundation).find? (fun q => q.isEmpty) = none →
          (SpiderGame.onMove s fromId toId).getPile toId = some tp)
      ∧ (∀ (s : GameState) (stock : Pile),
          NodupIds s →
          s.getPile "stock" = some stock →
          stock.cards ≠ [] →
          (s.getPilesByType .tableau).any (fun p => p.isEmpty) = false →
          SpiderGame.onStockClick s
              = SpiderGame.collectScan
                  (SpiderGame.postDealState s stock.cards)
                  (SpiderGame.scanIds s)
            ∧ ∀ (i : Nat) (hi : i < (SpiderGame.scanIds s).length),
                (SpiderGame.collectScan
                      (SpiderGame.postDealState s stock.cards)
                      ((SpiderGame.scanIds s).take i)).getPile
                    ((SpiderGame.scanIds s).get ⟨i, hi⟩)
                  = (SpiderGame.postDealState s stock.cards).getPile
                      ((SpiderGame.scanIds s).get ⟨i, hi⟩)
                ∧ SpiderGame.collectScan
                      (SpiderGame.postDealState s stock.cards)
                      ((SpiderGame.scanIds s).take (i + 1))
                  = SpiderGame.checkCompleteSequence
                      (SpiderGame.collectScan
                        (SpiderGame.postDealState s stock.cards)
                        ((SpiderGame.scanIds s).take i))
                      ((SpiderGame.scanIds s).get ⟨i, hi⟩))
      ∧ (∀ (st : GameState) (tid : String) (tp : Pile) (su : Suit)
          (f : Pile),
          NodupIds st →
          st.getPile tid = some tp →
          13 ≤ tp.cards.length →
          tp.cards.drop (tp.cards.length - 13) = kingToAceRun su →
          (st.getPilesByType .foundation).find? (fun q => q.isEmpty)
              = some f →
          (SpiderGame.checkCompleteSequence st tid).getPile tid
              = some { tp with cards := setLastFaceUp (tp.cards.take (tp.cards.length - 13)) }
            ∧ (SpiderGame.checkCompleteSequence st tid).getPile f.id
              = some { f with cards := f.cards ++ kingToAceRun su })
      ∧ (∀ (st : GameState) (tid : String) (tp : Pile),
          st.getPile tid = some tp →
          (st.getPilesByType .foundation).find? (fun q => q.isEmpty)
              = none →
          SpiderGame.checkCompleteSequence st tid = st)
      ∧ (∀ (st : GameState) (tid : String) (tp : Pile),
          st.getPile tid = some tp →
          (tp.cards.length < 13
            ∨ ∀ su, tp.cards.drop (tp.cards.length - 13)
                ≠ kingToAceRun su) →
          SpiderGame.checkCompleteSequence st tid = st) := by
  refine ⟨?_, ?_, ?_, ?_, ?_, ?_⟩
  · intro s fromId toId tp su f wf hne htp hlen hrun hfound
    exact spider_onMove_collect wf hne htp hlen hrun hfound
  · intro s fromId toId tp wf hne htp hnone
    unfold SpiderGame.onMove
    have hs1 : (flipSourceTop s fromId).getPile toId = some tp := by
      rw [flipSourceTop_getPile_ne (Ne.symm hne)]
      exact htp
    rw [checkComplete_nop_nofoundation hs1
      (by rw [flipSourceTop_foundations_wf wf]; exact hnone)]
    exact hs1
  · intro s stock wf hstock hsne hnoempty
    constructor
    · unfold SpiderGame.onStockClick
      rw [hstock]
      dsimp only
      rw [if_neg (by simp [Pile.isEmpty, hsne]), if_neg (by simp [hnoempty])]
      rfl
    · intro i hi
      have hskelpd : pilesSkeleton (SpiderGame.postDealState s stock.cards)
          = pilesSkeleton s := (sameShape_postDealState s stock.cards).1
      have hmem : (SpiderGame.scanIds s).get ⟨i, hi⟩
          ∈ (s.getPilesByType .tableau).map Pile.id :=
        (SpiderGame.scanIds s).get_mem i hi
      constructor
      · refine collect_fold_getPile_ne _ _ _ ?_ ?_
        · exact get_not_mem_take (SpiderGame.scanIds s)
            (tableau_ids_nodup wf) i hi
        · exact typeIdsExclude_of_skeleton hskelpd
            (tableau_id_excludes_foundations wf hmem)
      · exact collectScan_take_succ _ _ i hi
  · intro st tid tp su f wf htp hlen hrun hfound
    exact checkComplete_collect wf htp hlen hrun hfound
  · intro st tid tp htp hnone
    exact checkComplete_nop_nofoundation htp hnone
  · intro st tid tp htp hcase
    rcases hcase with h | h
    · exact checkComplete_nop_short htp h
    · by_cases hlen : tp.cards.length < 13
      · exact checkComplete_nop_short htp hlen
      · exact checkComplete_nop_norun htp (by omega) h

/-- A Spider board for the collect witness: a complete hearts run on the
destination pile. -/
def c4WState : GameState :=
  { piles := [⟨.tableau, "ta", [⟨.hearts, 5, true⟩]⟩,
              ⟨.tableau, "tb", kingToAceRun .hearts⟩,
              ⟨.foundation, "fa", []⟩],
    undoStack := [], moveCount := 0, won := false }

theorem spider_auto_collect_witness :
    NodupIds c4WState
      ∧ (SpiderGame.onMove c4WState "ta" "tb").getPile "tb"
          = some { (⟨.tableau, "tb", kingToAceRun .hearts⟩ : Pile) with
              cards := setLastFaceUp ((kingToAceRun Suit.hearts).take ((kingToAceRun Suit.hearts).length - 13)) }
      ∧ (SpiderGame.onMove c4WState "ta" "tb").getPile "fa"
          = some { (⟨.foundation, "fa", []⟩ : Pile) with
              cards := [] ++ kingToAceRun .hearts } := by
  refine ⟨by decide, ?_⟩
  exact spider_auto_collect.1 c4WState "ta" "tb"
    ⟨.tableau, "tb", kingToAceRun .hearts⟩ .hearts ⟨.foundation, "fa", []⟩
    (by decide) (by decide) (by decide) (by decide) (by decide) (by decide)

/-! ### Counting cards -/

lemma setLastFaceUp_length :
    ∀ l : List Card, (setLastFaceUp l).length = l.length := by
  intro l
  induction l with
  | nil => rfl
  | cons c rest ih =>
    cases rest with
    | nil => rfl
    | cons c2 rest2 => simpa [setLastFaceUp] using ih

lemma totalCards_congr {s1 s2 : GameState} (h : s1.piles = s2.piles) :
    totalCards s1 = totalCards s2 := by
  unfold totalCards
  rw [h]

lemma sum_lengths_modify :
    ∀ (l : List Pile) (pid : String) (p : Pile) (f : List Card → List Card),
      (l.map Pile.id).Nodup → l.find? (fun q => q.id = pid) = some p →
      ((l.map (fun q => if q.id = pid then { q with cards := f q.cards } else q)).map
            (fun q => q.cards.length)).sum + p.cards.length
        = (l.map (fun q => q.cards.length)).sum + (f p.cards).length := by
  intro l
  induction l with
  | nil => intro pid p f _ hfind; cases hfind
  | cons q l ih =>
    intro pid p f hnd hfind
    by_cases hq : q.id = pid
    · rw [List.find?_cons_of_pos _ (by simpa using hq)] at hfind
      have hpq : q = p := by injection hfind
      subst hpq
      have htail : ∀ r ∈ l, ¬ r.id = pid := by
        intro r hr hEq
        have : r.id ∈ l.map Pile.id := List.mem_map_of_mem Pile.id hr
        rw [hEq, ← hq] at this
        exact (List.nodup_cons.mp hnd).1 this
      have hmap : l.map (fun r =>
          if r.id = pid then { r with cards := f r.cards } else r) = l := by
        calc l.map _ = l.map id :=
              List.map_congr_left (fun r hr => by rw [if_neg (htail r hr)]; rfl)
          _ = l := List.map_id l
      simp only [List.map_cons, if_pos hq, hmap, List.sum_cons]
      omega
    · rw [List.find?_cons_of_neg _ (by simpa using hq)] at hfind
      have := ih pid p f (List.nodup_cons.mp hnd).2 hfind
      simp only [List.map_cons, if_neg hq, List.sum_cons]
      omega

lemma totalCards_modify {s : GameState} {pid : String} {p : Pile}
    (wf : NodupIds s) (hp : s.getPile pid = some p)
    (f : List Card → List Card) :
    totalCards (s.modifyPileCards pid f) + p.cards.length
      = totalCards s + (f p.cards).length :=
  sum_lengths_modify s.piles pid p f wf hp

lemma isSome_getPile_modify (s : GameState) (pid qid : String)
    (f : List Card → List Card) :
    ((s.modifyPileCards pid f).getPile qid).isSome
      = (s.getPile qid).isSome := by
  by_cases hq : qid = pid
  · subst hq
    cases hp : s.getPile qid with
    | none => rw [getPile_modify_none _ hp, hp]
    | some p =>
      rw [getPile_modify_self _ hp]
      rfl
  · rw [getPile_modify_ne _ hq]

lemma totalCards_flipSourceTop {s : GameState} (wf : NodupIds s)
    (fromId : String) :
    totalCards (flipSourceTop s fromId) = totalCards s := by
  unfold flipSourceTop
  cases hp : s.getPile fromId with
  | none => rfl
  | some p =>
    dsimp only
    split
    · have := totalCards_modify wf hp setLastFaceUp
      rw [setLastFaceUp_length] at this
      omega
    · rfl

lemma totalCards_checkComplete {s : GameState} (wf : NodupIds s)
    (pid : String) :
    totalCards (SpiderGame.checkCompleteSequence s pid) = totalCards s := by
  unfold SpiderGame.checkCompleteSequence
  cases hp : s.getPile pid with
  | none => rfl
  | some p =>
    dsimp only
    by_cases hlen : p.cards.length < 13
    · rw [if_pos hlen]
    · rw [if_neg hlen]
      cases hh : (p.cards.drop (p.cards.length - 13)).head? with
      | none => rfl
      | some c0 =>
        dsimp only
        by_cases hrun : p.cards.drop (p.cards.length - 13)
            = kingToAceRun c0.suit
        · rw [if_pos hrun]
          cases hfound : (s.getPilesByType .foundation).find?
              (fun q => q.isEmpty) with
          | none => rfl
          | some f =>
            dsimp only
            have hfpiles : f ∈ s.piles :=
              (List.mem_filter.mp (List.mem_of_find?_eq_some hfound)).1
            have hfempty : f.cards = [] := by
              have := List.find?_some hfound
              simpa [Pile.isEmpty] using this
            have hfne : f.id ≠ pid := by
              intro hEq
              have h1 : s.getPile f.id = some f := getPile_of_mem wf hfpiles
              rw [hEq, hp] at h1
              have hpf : p = f := by injection h1
              rw [hpf, hfempty] at hlen
              simp at hlen
            have ht1 := totalCards_modify wf hp
              (fun cs => cs.take (p.cards.length - 13))
            have wf1 : NodupIds (s.modifyPileCards pid
                (fun cs => cs.take (p.cards.length - 13))) :=
              nodupIds_of_skeleton (sameShape_modify ..).1 wf
            have hgf1 : (s.modifyPileCards pid
                (fun cs => cs.take (p.cards.length - 13))).getPile f.id
                = some f := by
              rw [getPile_modify_ne _ hfne]
              exact getPile_of_mem wf hfpiles
            have ht2 := totalCards_modify wf1 hgf1
              (fun cs => cs ++ p.cards.drop (p.cards.length - 13))
            have wf2 : NodupIds ((s.modifyPileCards pid
                (fun cs => cs.take (p.cards.length - 13))).modifyPileCards f.id
                (fun cs => cs ++ p.cards.drop (p.cards.length - 13))) :=
              nodupIds_of_skeleton (sameShape_modify ..).1 wf1
            have hgp2 : ((s.modifyPileCards pid
                (fun cs => cs.take (p.cards.length - 13))).modifyPileCards f.id
                (fun cs => cs ++ p.cards.drop (p.cards.length - 13))).getPile pid
                = some { p with cards := p.cards.take (p.cards.length - 13) } := by
              rw [getPile_modify_ne _ (Ne.symm hfne)]
              exact getPile_modify_self _ hp
            have ht3 := totalCards_modify wf2 hgp2 setLastFaceUp
            rw [setLastFaceUp_length] at ht3
            have hlentake : (p.cards.take (p.cards.length - 13)).length
                = p.cards.length - 13 := by
              rw [List.length_take]
              omega
            have hlendrop : (p.cards.drop (p.cards.length - 13)).length = 13 := by
              rw [List.length_drop]
              omega
            rw [List.length_append, hlendrop] at ht2
            rw [hlentake] at ht1
            omega
        · rw [if_neg hrun]

lemma dealLoop_getPile_notmem :
    ∀ (pids : List String) (stockCards : List Card) (s : GameState)
      (qid : String), qid ∉ pids →
      ((SpiderGame.dealLoop stockCards pids s).2).getPile qid
        = s.getPile qid := by
  intro pids
  induction pids with
  | nil => intro stockCards s qid _; rfl
  | cons pid rest ih =>
    intro stockCards s qid hq
    unfold SpiderGame.dealLoop
    cases stockCards.getLast? with
    | none => rfl
    | some c =>
      dsimp only
      rw [ih _ _ qid (fun h => hq (List.mem_cons_of_mem _ h))]
      exact getPile_modify_ne _ (fun h => hq (h ▸ List.mem_cons_self ..))

lemma totalCards_dealLoop :
    ∀ (pids : List String) (stockCards : List Card) (s : GameState),
      NodupIds s → (∀ pid ∈ pids, (s.getPile pid).isSome) →
      totalCards (SpiderGame.dealLoop stockCards pids s).2
          + (SpiderGame.dealLoop stockCards pids s).1.length
        = totalCards s + stockCards.length := by
  intro pids
  induction pids with
  | nil => intro stockCards s _ _; rfl
  | cons pid rest ih =>
    intro stockCards s wf hsome
    unfold SpiderGame.dealLoop
    cases hlast : stockCards.getLast? with
    | none => rfl
    | some c =>
      dsimp only
      have hne : stockCards ≠ [] := by
        intro h
        rw [h] at hlast
        simp at hlast
      obtain ⟨p, hp⟩ := Option.isSome_iff_exists.mp
        (hsome pid (List.mem_cons_self ..))
      have ht := totalCards_modify wf hp (fun cs => cs ++ [setFaceUp c])
      have wf2 : NodupIds (s.modifyPileCards pid
          (fun cs => cs ++ [setFaceUp c])) :=
        nodupIds_of_skeleton (sameShape_modify ..).1 wf
      have hsome2 : ∀ q ∈ rest, ((s.modifyPileCards pid
          (fun cs => cs ++ [setFaceUp c])).getPile q).isSome := by
        intro q hq
        rw [isSome_getPile_modify]
        exact hsome q (List.mem_cons_of_mem _ hq)
      have hih := ih stockCards.dropLast _ wf2 hsome2
      have hlend : stockCards.dropLast.length = stockCards.length - 1 :=
        List.length_dropLast ..
      have hpos : 0 < stockCards.length := List.length_pos.mpr hne
      rw [List.length_append] at ht
      simp only [List.length_cons, List.length_nil] at ht
      omega

lemma totalCards_klondike_onStockClick {s : GameState} (wf : NodupIds s)
    (dc : Nat) :
    totalCards (KlondikeGame.onStockClick s dc) = totalCards s := by
  unfold KlondikeGame.onStockClick
  cases hst : s.getPile "stock" with
  | none => rfl
  | some stock =>
    cases hwa : s.getPile "waste" with
    | none => rfl
    | some waste =>
      dsimp only
      have hws : ("waste" : String) ≠ "stock" := by decide
      have hsw : ("stock" : String) ≠ "waste" := by decide
      split
      · have ht1 := totalCards_modify wf hwa (fun _ => ([] : List Card))
        have wf1 : NodupIds (s.modifyPileCards "waste"
            (fun _ => ([] : List Card))) :=
          nodupIds_of_skeleton (sameShape_modify ..).1 wf
        have hgs : (s.modifyPileCards "waste"
            (fun _ => ([] : List Card))).getPile "stock" = some stock := by
          rw [getPile_modify_ne _ hsw]
          exact hst
        have ht2 := totalCards_modify wf1 hgs
          (fun _ => recycleAux waste.cards.reverse stock.cards)
        have hlenr : (recycleAux waste.cards.reverse stock.cards).length
            = stock.cards.length + waste.cards.length := by
          rw [recycleAux_spec]
          simp
        rw [hlenr] at ht2
        simp only [List.length_nil] at ht1
        omega
      · have ht1 := totalCards_modify wf hst
          (fun _ => (drawAux (min dc stock.cards.length) stock.cards
            waste.cards).1)
        have wf1 : NodupIds (s.modifyPileCards "stock"
            (fun _ => (drawAux (min dc stock.cards.length) stock.cards
              waste.cards).1)) :=
          nodupIds_of_skeleton (sameShape_modify ..).1 wf
        have hgw : (s.modifyPileCards "stock"
            (fun _ => (drawAux (min dc stock.cards.length) stock.cards
              waste.cards).1)).getPile "waste" = some waste := by
          rw [getPile_modify_ne _ hws]
          exact hwa
        have ht2 := totalCards_modify wf1 hgw
          (fun _ => (drawAux (min dc stock.cards.length) stock.cards
            waste.cards).2)
        have hmin : min dc stock.cards.length ≤ stock.cards.length :=
          Nat.min_le_right ..
        have hspec := drawAux_spec (min dc stock.cards.length) stock.cards
          waste.cards hmin
        have h1len : (drawAux (min dc stock.cards.length) stock.cards
            waste.cards).1.length
            = stock.cards.length - min dc stock.cards.length := by
          rw [hspec]
          simp
        have h2len : (drawAux (min dc stock.cards.length) stock.cards
            waste.cards).2.length
            = waste.cards.length + (stock.cards.length
              - (stock.cards.length - min dc stock.cards.length)) := by
          rw [hspec]
          simp
        rw [h1len] at ht1
        rw [h2len] at ht2
        omega

lemma totalCards_collect_fold :
    ∀ (pids : List String) (s : GameState), NodupIds s →
      totalCards (pids.foldl
          (fun st pid => SpiderGame.checkCompleteSequence st pid) s)
        = totalCards s := by
  intro pids
  induction pids with
  | nil => intro s _; rfl
  | cons pid rest ih =>
    intro s wf
    have heq : (pid :: rest).foldl
        (fun st pid => SpiderGame.checkCompleteSequence st pid) s
        = rest.foldl (fun st pid => SpiderGame.checkCompleteSequence st pid)
            (SpiderGame.checkCompleteSequence s pid) := rfl
    rw [heq, ih _ (nodupIds_of_skeleton (sameShape_checkComplete s pid).1 wf),
      totalCards_checkComplete wf]

lemma totalCards_spider_onStockClick {s : GameState} (wf : NodupIds s)
    (hexcstock : TypeIdsExclude s PileType.tableau "stock") :
    totalCards (SpiderGame.onStockClick s) = totalCards s := by
  unfold SpiderGame.onStockClick
  cases hst : s.getPile "stock" with
  | none => rfl
  | some stock =>
    dsimp only
    split
    · rfl
    · split
      · rfl
      · have hstocknotmem : "stock" ∉ (s.getPilesByType .tableau).map Pile.id := by
          intro hmem
          obtain ⟨q, hq, hqe⟩ := List.mem_map.mp hmem
          have hqp : q ∈ s.piles := (List.mem_filter.mp hq).1
          have hqt : q.type = PileType.tableau := by
            simpa using (List.mem_filter.mp hq).2
          exact hexcstock (q.id, q.type) (List.mem_map_of_mem _ hqp) hqt hqe
        have hsome : ∀ pid ∈ (s.getPilesByType .tableau).map Pile.id,
            (s.getPile pid).isSome := by
          intro pid hmem
          obtain ⟨q, hq, hqe⟩ := List.mem_map.mp hmem
          subst hqe
          rw [getPile_of_mem wf (List.mem_filter.mp hq).1]
          rfl
        have hdl := totalCards_dealLoop
          ((s.getPilesByType .tableau).map Pile.id) stock.cards s wf hsome
        have wfdl : NodupIds (SpiderGame.dealLoop stock.cards
            ((s.getPilesByType .tableau).map Pile.id) s).2 :=
          nodupIds_of_skeleton (sameShape_dealLoop ..).1 wf
        have hgst : (SpiderGame.dealLoop stock.cards
            ((s.getPilesByType .tableau).map Pile.id) s).2.getPile "stock"
            = some stock := by
          rw [dealLoop_getPile_notmem _ _ _ _ hstocknotmem]
          exact hst
        have hts := totalCards_modify wfdl hgst
          (fun _ => (SpiderGame.dealLoop stock.cards
            ((s.getPilesByType .tableau).map Pile.id) s).1)
        have wfpd : NodupIds (SpiderGame.postDealState s stock.cards) :=
          nodupIds_of_skeleton (sameShape_postDealState s stock.cards).1 wf
        rw [totalCards_collect_fold _ _ wfpd]
        show totalCards ((SpiderGame.dealLoop stock.cards
            ((s.getPilesByType .tableau).map Pile.id) s).2.modifyPileCards
          "stock" (fun _ => (SpiderGame.dealLoop stock.cards
            ((s.getPilesByType .tableau).map Pile.id) s).1)) = totalCards s
        omega

lemma totalCards_game_onMove {g : Game} (wf : NodupIds g.state)
    (fromId toId : String) :
    totalCards (Game.onMove g fromId toId).state = totalCards g.state := by
  unfold Game.onMove
  cases hv : g.variant with
  | klondike dc =>
    show totalCards (KlondikeGame.onMove g.state fromId) = _
    unfold KlondikeGame.onMove
    exact totalCards_flipSourceTop wf fromId
  | spider sc =>
    show totalCards (SpiderGame.onMove g.state fromId toId) = _
    unfold SpiderGame.onMove
    rw [totalCards_checkComplete
      (nodupIds_of_sameShape (sameShape_flipSourceTop ..) wf),
      totalCards_flipSourceTop wf]
  | freecell => rfl

lemma totalCards_game_onStockClick {g : Game} (wf : NodupIds g.state)
    (hexc : TypeIdsExclude g.state PileType.tableau "stock") :
    totalCards (Game.onStockClick g).state = totalCards g.state := by
  unfold Game.onStockClick
  cases hv : g.variant with
  | klondike dc =>
    show totalCards (KlondikeGame.onStockClick g.state dc) = _
    exact totalCards_klondike_onStockClick wf dc
  | spider sc =>
    show totalCards (SpiderGame.onStockClick g.state) = _
    exact totalCards_spider_onStockClick wf hexc
  | freecell => rfl

lemma pilesSkeleton_restore (s' : GameState) (e : UndoEntry) :
    pilesSkeleton (GameController.restoreSnapshot s' e) = pilesSkeleton s' := by
  unfold pilesSkeleton GameController.restoreSnapshot
  simp only [List.map_map]
  refine List.map_congr_left (fun p _ => ?_)
  simp only [Function.comp]
  split <;> rfl

lemma totalCards_restore {s' : GameState} {e : UndoEntry}
    (hsk : pilesSkeleton s' = entrySkeleton e) (wf : NodupIds s') :
    totalCards (GameController.restoreSnapshot s' e) = entryTotal e := by
  unfold totalCards entryTotal
  rw [restoreSnapshot_piles hsk wf]
  have hlen : s'.piles.length = e.piles.length := by
    have h1 := congrArg List.length hsk
    simpa [pilesSkeleton, entrySkeleton] using h1
  rw [zip_restore_lengths s'.piles e.piles hlen]

lemma tryMove_success_from {g : Game} {fromId toId : String} {k : Nat}
    {g2 : Game} (htm : GameController.tryMove g fromId toId k = (true, g2)) :
    ∃ fp, g.state.getPile fromId = some fp := by
  unfold GameController.tryMove at htm
  cases hfp : g.state.getPile fromId with
  | none =>
    rw [hfp] at htm
    exact absurd (congrArg Prod.fst htm) (by simp)
  | some fp => exact ⟨fp, rfl⟩

lemma game_canMove_true_toPile {g : Game} {cards : List Card}
    {fromId : Option String} {toId : String}
    (h : g.canMove cards fromId toId = true) :
    ∃ tp, g.state.getPile toId = some tp := by
  unfold Game.canMove at h
  cases hv : g.variant with
  | klondike dc =>
    rw [hv] at h
    unfold KlondikeGame.canMove at h
    cases hgp : g.state.getPile toId with
    | none => rw [hgp] at h; cases h
    | some tp => exact ⟨tp, rfl⟩
  | spider sc =>
    rw [hv] at h
    unfold SpiderGame.canMove at h
    cases hgp : g.state.getPile toId with
    | none => rw [hgp] at h; cases h
    | some tp => exact ⟨tp, rfl⟩
  | freecell =>
    rw [hv] at h
    unfold FreeCellGame.canMove at h
    cases hgp : g.state.getPile toId with
    | none => rw [hgp] at h; cases h
    | some tp => exact ⟨tp, rfl⟩

lemma totalCards_tryMove_success {g : Game} {fromId toId : String} {k : Nat}
    {g2 : Game} (wf : NodupIds g.state)
    (htm : GameController.tryMove g fromId toId k = (true, g2)) :
    totalCards g2.state = totalCards g.state := by
  obtain ⟨fp, hfp⟩ := tryMove_success_from htm
  obtain ⟨hcm, hpiles⟩ := tryMove_success_piles hfp htm
  obtain ⟨hcne, hfne⟩ := game_canMove_true hcm
  have hne : fromId ≠ toId := fun hEq => hfne (by rw [hEq])
  obtain ⟨tp, htp⟩ := game_canMove_true_toPile hcm
  have hk : k < fp.cards.length := by
    by_contra hle
    push_neg at hle
    exact hcne (List.drop_eq_nil_of_le hle)
  have hfpu : (g.state.pushUndo).getPile fromId = some fp := hfp
  have wfp : NodupIds g.state.pushUndo := wf
  have ht1 := totalCards_modify wfp hfpu (fun cs => cs.take k)
  have wf1 : NodupIds ((g.state.pushUndo).modifyPileCards fromId
      (fun cs => cs.take k)) :=
    nodupIds_of_skeleton (sameShape_modify ..).1 wfp
  have hgt : ((g.state.pushUndo).modifyPileCards fromId
      (fun cs => cs.take k)).getPile toId = some tp := by
    rw [getPile_modify_ne _ (Ne.symm hne)]
    exact htp
  have ht2 := totalCards_modify wf1 hgt (fun cs => cs ++ fp.cards.drop k)
  have wfm : NodupIds (movedState g fromId toId k fp) :=
    nodupIds_of_skeleton (movedState_skeleton ..) wf
  have htom := totalCards_game_onMove
    (g := { g with state := movedState g fromId toId k fp }) wfm fromId toId
  have htg2 : totalCards g2.state = totalCards
      (Game.onMove { g with state := movedState g fromId toId k fp }
        fromId toId).state :=
    totalCards_congr hpiles
  have hmseq : totalCards (movedState g fromId toId k fp)
      = totalCards (((g.state.pushUndo).modifyPileCards fromId
          (fun cs => cs.take k)).modifyPileCards toId
        (fun cs => cs ++ fp.cards.drop k)) := rfl
  have hpu : totalCards g.state.pushUndo = totalCards g.state := rfl
  have hlt : (fp.cards.take k).length = k := by
    rw [List.length_take]
    omega
  have hld : (fp.cards.drop k).length = fp.cards.length - k :=
    List.length_drop ..
  rw [List.length_append, hld] at ht2
  rw [hlt] at ht1
  have htomst : totalCards ({ g with
      state := movedState g fromId toId k fp } : Game).state
      = totalCards (movedState g fromId toId k fp) := rfl
  omega

/-- The card-conservation invariant: unique pile ids, no tableau pile with
the id "stock" (always true of the source's pile map, and needed because
the Spider deal writes the remaining stock back under that id), a fixed
total card count `D`, and every undo entry capturing the same pile
skeleton and the same total. -/
def Inv (D : Nat) (g : Game) : Prop :=
  NodupIds g.state
    ∧ TypeIdsExclude g.state PileType.tableau "stock"
    ∧ totalCards g.state = D
    ∧ ∀ e ∈ g.state.undoStack,
        entrySkeleton e = pilesSkeleton g.state ∧ entryTotal e = D

lemma inv_tryMove {D : Nat} {g : Game} (hInv : Inv D g)
    (fromId toId : String) (k : Nat) :
    Inv D (GameController.tryMove g fromId toId k).2 := by
  obtain ⟨wf, hexc, htot, hstack⟩ := hInv
  rcases htm : GameController.tryMove g fromId toId k with ⟨b, g2⟩
  cases b
  · rw [tryMove_false_state htm]
    exact ⟨wf, hexc, htot, hstack⟩
  · obtain ⟨hst, hskel, _⟩ := tryMove_success_state htm
    have htot2 := totalCards_tryMove_success wf htm
    refine ⟨nodupIds_of_skeleton hskel wf,
      typeIdsExclude_of_skeleton hskel hexc, htot2.trans htot, ?_⟩
    intro e he
    rw [hst] at he
    rcases List.mem_cons.mp he with rfl | hmem
    · exact ⟨(entrySkeleton_snapshot ..).trans hskel.symm,
        (entryTotal_snapshot ..).trans htot⟩
    · obtain ⟨h1, h2⟩ := hstack e hmem
      exact ⟨h1.trans hskel.symm, h2⟩

lemma inv_onStockClick {D : Nat} {g : Game} (hInv : Inv D g) :
    Inv D (GameController.onStockClick g) := by
  obtain ⟨wf, hexc, htot, hstack⟩ := hInv
  obtain ⟨hst, hskel, _⟩ := ctrl_onStockClick_state g
  have htot2 : totalCards (GameController.onStockClick g).state
      = totalCards g.state := by
    have h1 : totalCards (GameController.onStockClick g).state
        = totalCards (Game.onStockClick
            { g with state := g.state.pushUndo }).state := rfl
    rw [h1]
    exact totalCards_game_onStockClick
      (g := { g with state := g.state.pushUndo }) wf hexc
  refine ⟨nodupIds_of_skeleton hskel wf,
    typeIdsExclude_of_skeleton hskel hexc, htot2.trans htot, ?_⟩
  intro e he
  rw [hst] at he
  rcases List.mem_cons.mp he with rfl | hmem
  · exact ⟨(entrySkeleton_snapshot ..).trans hskel.symm,
      (entryTotal_snapshot ..).trans htot⟩
  · obtain ⟨h1, h2⟩ := hstack e hmem
    exact ⟨h1.trans hskel.symm, h2⟩

lemma inv_undo {D : Nat} {g : Game} (hInv : Inv D g) :
    Inv D (GameController.undo g) := by
  obtain ⟨wf, hexc, htot, hstack⟩ := hInv
  cases hus : g.state.undoStack with
  | nil =>
    unfold GameController.undo
    rw [hus]
    exact ⟨wf, hexc, htot, hstack⟩
  | cons e rest =>
    unfold GameController.undo
    rw [hus]
    dsimp only
    obtain ⟨hske, hte⟩ := hstack e (by rw [hus]; exact List.mem_cons_self ..)
    have wfcur : NodupIds ({ g.state with undoStack := rest } : GameState) := wf
    have hskres : pilesSkeleton (GameController.restoreSnapshot
        { g.state with undoStack := rest } e) = pilesSkeleton g.state :=
      pilesSkeleton_restore ..
    have htres : totalCards (GameController.restoreSnapshot
        { g.state with undoStack := rest } e) = D :=
      (totalCards_restore hske.symm wfcur).trans hte
    refine ⟨nodupIds_of_skeleton hskres wf,
      typeIdsExclude_of_skeleton hskres hexc, htres, ?_⟩
    intro e2 he2
    obtain ⟨h1, h2⟩ := hstack e2
      (by rw [hus]; exact List.mem_cons_of_mem _ he2)
    exact ⟨h1.trans hskres.symm, h2⟩

instance (D : Nat) (g : Game) : Decidable (Inv D g) := by
  unfold Inv
  infer_instance

/-! ### Card counting through the setups -/

lemma flipDealt_pairs :
    ∀ l : List Card, (flipDealt l).map cardPair = l.map cardPair := by
  intro l
  induction l with
  | nil => rfl
  | cons c rest ih =>
    cases rest with
    | nil => rfl
    | cons c2 rest2 =>
      show cardPair (setFaceDown c) :: (flipDealt (c2 :: rest2)).map cardPair
        = cardPair c :: (c2 :: rest2).map cardPair
      rw [ih]
      rfl

lemma map_pair_setFaceUp (l : List Card) :
    (l.map setFaceUp).map cardPair = l.map cardPair := by
  rw [List.map_map]
  exact List.map_congr_left (fun c _ => rfl)

lemma totalCards_eq_length_allCards (s : GameState) :
    totalCards s = (allCards s).length := by
  unfold totalCards allCards
  rw [List.length_flatten, List.map_map]
  rfl

lemma klondike_setup_allCards_pairs (deck : List Card) :
    (allCards (KlondikeGame.setup deck)).map cardPair = deck.map cardPair := by
  unfold allCards KlondikeGame.setup
  simp only [List.map_cons, List.map_nil, List.flatten_cons, List.flatten_nil,
    List.map_append, flipDealt_pairs, List.append_nil, List.nil_append,
    List.map_take, List.map_drop, List.take_append_drop]

lemma spider_setup_allCards_pairs (deck : List Card) :
    (allCards (SpiderGame.setup deck)).map cardPair = deck.map cardPair := by
  unfold allCards SpiderGame.setup
  simp only [List.map_cons, List.map_nil, List.flatten_cons, List.flatten_nil,
    List.map_append, flipDealt_pairs, List.append_nil, List.nil_append,
    List.map_take, List.map_drop, List.take_append_drop]

lemma freecell_setup_allCards_pairs (deck : List Card)
    (hlen : deck.length = 52) :
    (allCards (FreeCellGame.setup deck)).map cardPair = deck.map cardPair := by
  unfold allCards FreeCellGame.setup
  have hlast : ((((((((deck.drop 7).drop 7).drop 7).drop 7).drop 6).drop
      6).drop 6)).take 6
      = (((((((deck.drop 7).drop 7).drop 7).drop 7).drop 6).drop 6).drop 6) := by
    refine List.take_of_length_le ?_
    simp [hlen]
  dsimp only
  rw [hlast]
  simp only [List.map_cons, List.map_nil, List.flatten_cons, List.flatten_nil,
    List.map_append, map_pair_setFaceUp, List.append_nil, List.nil_append,
    List.map_take, List.map_drop, List.take_append_drop]

lemma countP_le_of_forall_mem {α : Type} [DecidableEq α] (l : List α)
    (k : Nat) (h : ∀ x ∈ l, l.countP (fun y => y = x) ≤ k) (a : α) :
    l.countP (fun y => y = a) ≤ k := by
  by_cases ha : a ∈ l
  · exact h a ha
  · rw [List.countP_eq_zero.mpr ?_]
    · exact Nat.zero_le k
    · intro y hy hya
      rw [show y = a from by simpa using hya] at hy
      exact ha hy

lemma countP_le_one_of_nodup {α : Type} [DecidableEq α] (a : α) :
    ∀ l : List α, l.Nodup → l.countP (fun y => y = a) ≤ 1 := by
  intro l
  induction l with
  | nil => intro _; simp
  | cons b l ih =>
    intro h
    rw [List.countP_cons]
    have ihl := ih (List.nodup_cons.mp h).2
    by_cases hb : b = a
    · have hz : l.countP (fun y => decide (y = a)) = 0 := by
        rw [List.countP_eq_zero]
        intro y hy hya
        have hy2 : y = a := by simpa using hya
        rw [hy2, ← hb] at hy
        exact (List.nodup_cons.mp h).1 hy
      simp [hz, hb]
    · simp [hb, ihl]

lemma setup_total_of_pairs {s : GameState} {deck : List Card}
    (h : (allCards s).map cardPair = deck.map cardPair) :
    totalCards s = deck.length := by
  rw [totalCards_eq_length_allCards]
  have h1 := congrArg List.length h
  simpa using h1

lemma klondike_setup_ids (deck : List Card) :
    (KlondikeGame.setup deck).piles.map Pile.id
      = ["tableau-0", "tableau-1", "tableau-2", "tableau-3", "tableau-4",
         "tableau-5", "tableau-6", "foundation-0", "foundation-1",
         "foundation-2", "foundation-3", "stock", "waste"] := rfl

lemma klondike_setup_skel (deck : List Card) :
    pilesSkeleton (KlondikeGame.setup deck)
      = [("tableau-0", .tableau), ("tableau-1", .tableau),
         ("tableau-2", .tableau), ("tableau-3", .tableau),
         ("tableau-4", .tableau), ("tableau-5", .tableau),
         ("tableau-6", .tableau), ("foundation-0", .foundation),
         ("foundation-1", .foundation), ("foundation-2", .foundation),
         ("foundation-3", .foundation), ("stock", .stock),
         ("waste", .waste)] := rfl

lemma spider_setup_ids (deck : List Card) :
    (SpiderGame.setup deck).piles.map Pile.id
      = ["tableau-0", "tableau-1", "tableau-2", "tableau-3", "tableau-4",
         "tableau-5", "tableau-6", "tableau-7", "tableau-8", "tableau-9",
         "foundation-0", "foundation-1", "foundation-2", "foundation-3",
         "foundation-4", "foundation-5", "foundation-6", "foundation-7",
         "stock"] := rfl

lemma spider_setup_skel (deck : List Card) :
    pilesSkeleton (SpiderGame.setup deck)
      = [("tableau-0", .tableau), ("tableau-1", .tableau),
         ("tableau-2", .tableau), ("tableau-3", .tableau),
         ("tableau-4", .tableau), ("tableau-5", .tableau),
         ("tableau-6", .tableau), ("tableau-7", .tableau),
         ("tableau-8", .tableau), ("tableau-9", .tableau),
         ("foundation-0", .foundation), ("foundation-1", .foundation),
         ("foundation-2", .foundation), ("foundation-3", .foundation),
         ("foundation-4", .foundation), ("foundation-5", .foundation),
         ("foundation-6", .foundation), ("foundation-7", .foundation),
         ("stock", .stock)] := rfl

lemma freecell_setup_ids (deck : List Card) :
    (FreeCellGame.setup deck).piles.map Pile.id
      = ["tableau-0", "tableau-1", "tableau-2", "tableau-3", "tableau-4",
         "tableau-5", "tableau-6", "tableau-7", "freecell-0", "freecell-1",
         "freecell-2", "freecell-3", "foundation-0", "foundation-1",
         "foundation-2", "foundation-3"] := rfl

lemma freecell_setup_skel (deck : List Card) :
    pilesSkeleton (FreeCellGame.setup deck)
      = [("tableau-0", .tableau), ("tableau-1", .tableau),
         ("tableau-2", .tableau), ("tableau-3", .tableau),
         ("tableau-4", .tableau), ("tableau-5", .tableau),
         ("tableau-6", .tableau), ("tableau-7", .tableau),
         ("freecell-0", .freecell), ("freecell-1", .freecell),
         ("freecell-2", .freecell), ("freecell-3", .freecell),
         ("foundation-0", .foundation), ("foundation-1", .foundation),
         ("foundation-2", .foundation), ("foundation-3", .foundation)] := rfl

set_option maxRecDepth 40000 in
/-- C7: Card conservation. After `setup()` the total card count equals the
variant's deck size — 52 for Klondike and FreeCell, 104 for Spider in each
of its suit-count modes (1, 2, 4) — with no (suit, rank) pair exceeding
its intended multiplicity (1 for the 52-card variants, `8 / suitCount`
copies for Spider); the freshly set-up game satisfies the conservation
invariant `Inv`, and every orchestrated operation — `tryMove` (successful
or not), `onStockClick`, `undo` — preserves the total and the invariant. -/
theorem card_conservation :
    (∀ (deck : List Card) (dc : Nat), deck.Perm standardDeck →
        Inv 52 ⟨.klondike dc, KlondikeGame.setup deck⟩
          ∧ ∀ pr, pairCount (KlondikeGame.setup deck) pr ≤ 1)
      ∧ (∀ deck : List Card, deck.Perm standardDeck →
          Inv 52 ⟨.freecell, FreeCellGame.setup deck⟩
            ∧ ∀ pr, pairCount (FreeCellGame.setup deck) pr ≤ 1)
      ∧ (∀ (deck : List Card) (sc : Nat), sc = 1 ∨ sc = 2 ∨ sc = 4 →
          deck.Perm (spiderDeck sc) →
          Inv 104 ⟨.spider sc, SpiderGame.setup deck⟩
            ∧ ∀ pr, pairCount (SpiderGame.setup deck) pr ≤ 8 / sc)
      ∧ (∀ (D : Nat) (g : Game) (fromId toId : String) (k : Nat), Inv D g →
          totalCards (GameController.tryMove g fromId toId k).2.state = D
            ∧ totalCards (GameController.onStockClick g).state = D
            ∧ totalCards (GameController.undo g).state = D
            ∧ Inv D (GameController.tryMove g fromId toId k).2
            ∧ Inv D (GameController.onStockClick g)
            ∧ Inv D (GameController.undo g)) := by
  have hstd52 : standardDeck.length = 52 := by decide
  have hstdnodup : (standardDeck.map cardPair).Nodup := by decide
  refine ⟨?_, ?_, ?_, ?_⟩
  · intro deck dc hp
    constructor
    · refine ⟨?_, ?_, ?_, ?_⟩
      · unfold NodupIds
        show ((KlondikeGame.setup deck).piles.map Pile.id).Nodup
        rw [klondike_setup_ids]
        decide
      · unfold TypeIdsExclude
        show ∀ pr ∈ pilesSkeleton (KlondikeGame.setup deck), _
        rw [klondike_setup_skel]
        decide
      · show totalCards (KlondikeGame.setup deck) = 52
        rw [setup_total_of_pairs (klondike_setup_allCards_pairs deck),
          hp.length_eq, hstd52]
      · intro e he
        have hempty : (KlondikeGame.setup deck).undoStack = [] := rfl
        rw [show (⟨Variant.klondike dc, KlondikeGame.setup deck⟩ :
          Game).state.undoStack = [] from rfl] at he
        exact absurd he (List.not_mem_nil e)
    · intro pr
      unfold pairCount
      rw [klondike_setup_allCards_pairs deck,
        List.Perm.countP_eq _ (hp.map cardPair)]
      exact countP_le_one_of_nodup pr _ hstdnodup
  · intro deck hp
    have hlen : deck.length = 52 := hp.length_eq.trans hstd52
    constructor
    · refine ⟨?_, ?_, ?_, ?_⟩
      · unfold NodupIds
        show ((FreeCellGame.setup deck).piles.map Pile.id).Nodup
        rw [freecell_setup_ids]
        decide
      · unfold TypeIdsExclude
        show ∀ pr ∈ pilesSkeleton (FreeCellGame.setup deck), _
        rw [freecell_setup_skel]
        decide
      · show totalCards (FreeCellGame.setup deck) = 52
        rw [setup_total_of_pairs (freecell_setup_allCards_pairs deck hlen),
          hlen]
      · intro e he
        rw [show (⟨Variant.freecell, FreeCellGame.setup deck⟩ :
          Game).state.undoStack = [] from rfl] at he
        exact absurd he (List.not_mem_nil e)
    · intro pr
      unfold pairCount
      rw [freecell_setup_allCards_pairs deck hlen,
        List.Perm.countP_eq _ (hp.map cardPair)]
      exact countP_le_one_of_nodup pr _ hstdnodup
  · intro deck sc hsc hp
    have hcount : ∀ pr, ((spiderDeck sc).map cardPair).countP
          (fun y => y = pr) ≤ 8 / sc ∧
        (spiderDeck sc).length = 104 := by
      rcases hsc with rfl | rfl | rfl
      · intro pr
        exact ⟨countP_le_of_forall_mem ((spiderDeck 1).map cardPair) (8 / 1)
          (by decide) pr, by decide⟩
      · intro pr
        exact ⟨countP_le_of_forall_mem ((spiderDeck 2).map cardPair) (8 / 2)
          (by decide) pr, by decide⟩
      · intro pr
        exact ⟨countP_le_of_forall_mem ((spiderDeck 4).map cardPair) (8 / 4)
          (by decide) pr, by decide⟩
    constructor
    · refine ⟨?_, ?_, ?_, ?_⟩
      · unfold NodupIds
        show ((SpiderGame.setup deck).piles.map Pile.id).Nodup
        rw [spider_setup_ids]
        decide
      · unfold TypeIdsExclude
        show ∀ pr ∈ pilesSkeleton (SpiderGame.setup deck), _
        rw [spider_setup_skel]
        decide
      · show totalCards (SpiderGame.setup deck) = 104
        rw [setup_total_of_pairs (spider_setup_allCards_pairs deck),
          hp.length_eq]
        exact (hcount (Suit.spades, 1)).2
      · intro e he
        rw [show (⟨Variant.spider sc, SpiderGame.setup deck⟩ :
          Game).state.undoStack = [] from rfl] at he
        exact absurd he (List.not_mem_nil e)
    · intro pr
      unfold pairCount
      rw [spider_setup_allCards_pairs deck,
        List.Perm.countP_eq _ (hp.map cardPair)]
      exact (hcount pr).1
  · intro D g fromId toId k hInv
    have h1 := inv_tryMove hInv fromId toId k
    have h2 := inv_onStockClick hInv
    have h3 := inv_undo hInv
    exact ⟨h1.2.2.1, h2.2.2.1, h3.2.2.1, h1, h2, h3⟩

/-- A three-card game satisfying the conservation invariant at total 3. -/
def c7WGame : Game :=
  ⟨.klondike 1,
    { piles := [⟨.stock, "stock", [⟨.spades, 2, false⟩, ⟨.hearts, 3, false⟩]⟩,
                ⟨.waste, "waste", [⟨.clubs, 7, true⟩]⟩],
      undoStack := [], moveCount := 0, won := false }⟩

theorem card_conservation_witness :
    standardDeck.Perm standardDeck
      ∧ Inv 52 ⟨.klondike 1, KlondikeGame.setup standardDeck⟩
      ∧ Inv 3 c7WGame
      ∧ totalCards (GameController.onStockClick c7WGame).state = 3
      ∧ totalCards (GameController.undo c7WGame).state = 3 := by
  refine ⟨List.Perm.refl standardDeck,
    (card_conservation.1 standardDeck 1 (List.Perm.refl standardDeck)).1,
    by decide, ?_, ?_⟩
  · exact (card_conservation.2.2.2 3 c7WGame "a" "b" 0 (by decide)).2.1
  · exact (card_conservation.2.2.2 3 c7WGame "a" "b" 0 (by decide)).2.2.1

end Solitaire
